import Mathlib

/-!
Verification model of the Aria-immersive showroom core.

The development shallowly embeds the choreography core of the repository:

- src/js/aria.js: the avatar motion state machine (walkToPosition,
  dampRotation, updateARIA with its per-state updates, the walk safety
  timeout and the walk completion signal protocol);
- the camera controller (CameraController): its completion signal protocol
  for transitions and tours (cancelTransition, startTour, stopTour,
  playTour, stopShowroomTour, transitionTo) and the cinematic path
  generation of playProductCinematic;
- src/js/main.js: the request sequencing orchestrator (requestCollection
  and handleCollectionSelect) with its single flight lock, the pending
  request slot and the per step active request checks.

Numbers are modeled as exact rationals (the JavaScript engine computes in
binary floating point; no claim below depends on rounding at the scale of
the constants involved). Transcendental primitives of the runtime
(Math.sin, Math.exp, Math.atan2, Math.sqrt) are kept abstract: the avatar
model is parametric in a Prims record, so each theorem holds for every
interpretation of them, and witnesses instantiate a concrete one.
JavaScript promises settle at most once; a promise is modeled by a
numeric id, a raw log of resolver invocations (resolveLog) and an
idempotent settle set (settled).
-/

/-- A three component vector, as THREE.Vector3 is used by the source. -/
structure V3 (α : Type) where
  x : α
  y : α
  z : α
  deriving DecidableEq, Repr

/-- The numeric primitives the avatar code takes from the JavaScript
runtime: Math.sin, Math.exp, Math.atan2 and Math.sqrt. All avatar
theorems are proved for an arbitrary interpretation. -/
structure Prims where
  sinf : ℚ → ℚ
  expf : ℚ → ℚ
  atan2f : ℚ → ℚ → ℚ
  sqrtf : ℚ → ℚ

namespace Aria

/-- Source constant walkSpeed = 1.1 (units per second). -/
def walkSpeed : ℚ := 1.1

/-- Source constant turnSpeed = 2.4. -/
def turnSpeed : ℚ := 2.4

/-- Source constant ANGLE_TOLERANCE = 0.004 rad. -/
def ANGLE_TOLERANCE : ℚ := 0.004

/-- Source constant bobAmplitude = 0.02. -/
def bobAmplitude : ℚ := 0.02

/-- Source constant bobFrequency = 5.5. -/
def bobFrequency : ℚ := 5.5

/-- Source constant swayAmplitude = 0.015. -/
def swayAmplitude : ℚ := 0.015

/-- Source constant leanAmplitude = 0.01. -/
def leanAmplitude : ℚ := 0.01

/-- Source constant idleBreath = 0.012. -/
def idleBreath : ℚ := 0.012

/-- Math.PI as a rational constant (the double closest to pi differs from
this decimal by less than 1e-16; no claim below distinguishes the two,
every angle the claims use is far from the wrap thresholds). -/
def piQ : ℚ := 3.141592653589793

/-- The loop (while (diff > Math.PI)) diff -= 2 pi of dampRotation,
embedded with fuel; every input the claims touch needs zero iterations. -/
def wrapHi : ℕ → ℚ → ℚ
  | 0, d => d
  | n + 1, d => if piQ < d then wrapHi n (d - 2 * piQ) else d

/-- The loop (while (diff < -Math.PI)) diff += 2 pi of dampRotation,
embedded with fuel. -/
def wrapLo : ℕ → ℚ → ℚ
  | 0, d => d
  | n + 1, d => if d < -piQ then wrapLo n (d + 2 * piQ) else d

/-- Math.sign. -/
def jsSign (q : ℚ) : ℚ := if 0 < q then 1 else if q < 0 then -1 else 0

/-- dampRotation(current, target, speed, dt) of aria.js: wraps the angle
difference, computes an exponential smoothing step with a minimum step
floor, and reports finished once the difference is inside the angular
tolerance (returning the target as the value). -/
def dampRotation (P : Prims) (current target speed dt : ℚ) : ℚ × Bool :=
  let diff := wrapLo 100 (wrapHi 100 (target - current))
  let factor := 1 - P.expf (-(speed * dt * 2))
  let step0 := diff * factor
  let minSpeed := 0.1 * dt
  let step :=
    if |step0| < minSpeed ∧ ANGLE_TOLERANCE < |diff| then jsSign diff * minSpeed else step0
  if |diff| < ANGLE_TOLERANCE then (target, true) else (current + step, false)

/-- THREE.MathUtils.damp(x, y, lambda, dt): lerp by 1 - exp(-lambda dt). -/
def dampM (P : Prims) (x y lambda dt : ℚ) : ℚ :=
  x + (y - x) * (1 - P.expf (-(lambda * dt)))

/-- The avatar state names of aria.js (the ariaState variable). -/
inductive AState where
  | idle
  | turningToTarget
  | walking
  | turningToCamera
  | speaking
  deriving DecidableEq, Repr

/-- The mutable module state of aria.js that the claims concern. Promise
ids are the walk request ids; resolveLog records every invocation of a
resolve callback, settled is the set of promises that have settled (a
JavaScript promise ignores further resolve calls). The model assumes the
avatar asset loaded (the missing asset branch resolves immediately and
skips everything else) and a skeletal mixer present (the not mixer
branches only touch the inner model transform, which no claim reads). -/
structure AriaSt where
  st : AState
  pos : V3 ℚ
  rotX : ℚ
  rotY : ℚ
  rotZ : ℚ
  targetRotation : ℚ
  walkStart : V3 ℚ
  walkEnd : V3 ℚ
  walkDuration : ℚ
  walkElapsed : ℚ
  walkProgress : ℚ
  stepPhase : ℚ
  lastUpdateTime : ℚ
  walkRequestId : ℕ
  pendingWalkResolve : Option ℕ
  onWalkComplete : Option ℕ
  pendingWalkTimeout : Option ℕ
  timeoutMs : ℚ
  resolveLog : List ℕ
  settled : List ℕ
  lightIntensity : ℚ
  targetLightIntensity : ℚ
  speakingFlag : Bool
  deriving DecidableEq, Repr

/-- ARIA_START_POS = (0, 0, 2). -/
def ARIA_START_POS : V3 ℚ := ⟨0, 0, 2⟩

/-- The module state right after load: idle at the start position. -/
def ariaInit : AriaSt where
  st := .idle
  pos := ARIA_START_POS
  rotX := 0
  rotY := 0
  rotZ := 0
  targetRotation := 0
  walkStart := ⟨0, 0, 0⟩
  walkEnd := ⟨0, 0, 0⟩
  walkDuration := 0
  walkElapsed := 0
  walkProgress := 0
  stepPhase := 0
  lastUpdateTime := 0
  walkRequestId := 0
  pendingWalkResolve := none
  onWalkComplete := none
  pendingWalkTimeout := none
  timeoutMs := 0
  resolveLog := []
  settled := []
  lightIntensity := 1
  targetLightIntensity := 1
  speakingFlag := false

/-- Invoking resolve(id) on the promise of walk request id: the raw call
is always logged, the promise settles only on the first call. -/
def promiseResolve (r : ℕ) (s : AriaSt) : AriaSt :=
  { s with resolveLog := s.resolveLog ++ [r],
           settled := if r ∈ s.settled then s.settled else s.settled ++ [r] }

/-- The pendingWalkResolve closure walkToPosition builds for request r:
bail out when a newer request took over, otherwise clear the timeout and
both callback slots and resolve the promise of r. -/
def fireWalkResolver (r : ℕ) (s : AriaSt) : AriaSt :=
  if r ≠ s.walkRequestId then s
  else
    promiseResolve r
      { s with pendingWalkTimeout := none, onWalkComplete := none, pendingWalkResolve := none }

/-- walkToPosition(targetPos) of aria.js: resolve any in flight walk,
clear its timeout, allocate the next request id, install the resolver as
both pendingWalkResolve and onWalkComplete, set up the walk geometry
(the end point projected to y = 0), derive the duration and the safety
timeout, aim at the target and enter turning_to_target. -/
def walkToPosition (P : Prims) (targetPos : V3 ℚ) (s : AriaSt) : AriaSt :=
  let s :=
    match s.pendingWalkResolve with
    | some r => { fireWalkResolver r s with pendingWalkResolve := none }
    | none => s
  let s := { s with pendingWalkTimeout := none }
  let rid := s.walkRequestId + 1
  let s := { s with walkRequestId := rid,
                    pendingWalkResolve := some rid,
                    onWalkComplete := some rid }
  let wStart := s.pos
  let wEnd : V3 ℚ := ⟨targetPos.x, 0, targetPos.z⟩
  let dist :=
    P.sqrtf ((wEnd.x - wStart.x) ^ 2 + (wEnd.y - wStart.y) ^ 2 + (wEnd.z - wStart.z) ^ 2)
  let dur := max 3.6 (dist / walkSpeed)
  let tms := max 8000 (dur * 1500)
  let tRot := P.atan2f (wEnd.x - s.pos.x) (wEnd.z - s.pos.z)
  { s with walkStart := wStart, walkEnd := wEnd,
           walkProgress := 0, walkElapsed := 0, stepPhase := 0,
           walkDuration := dur, timeoutMs := tms,
           pendingWalkTimeout := some rid,
           targetRotation := tRot, st := .turningToTarget }

/-- The safety timeout handler of walkToPosition firing: the timer is
spent; the handler bails when a newer request took over, snaps the
position to the walk end and fires the completion callback only when the
state is neither idle nor speaking, then resolves the promise (a second
resolve on an already settled promise is absorbed). -/
def walkTimeoutFire (s : AriaSt) : AriaSt :=
  match s.pendingWalkTimeout with
  | none => s
  | some r =>
    let s := { s with pendingWalkTimeout := none }
    if r ≠ s.walkRequestId then s
    else if s.st ≠ .idle ∧ s.st ≠ .speaking then
      let s := { s with pos := ⟨s.walkEnd.x, 0, s.walkEnd.z⟩ }
      let s :=
        match s.onWalkComplete with
        | some rc => fireWalkResolver rc { s with onWalkComplete := none }
        | none => s
      promiseResolve r s
    else s

/-- updateIdle: breathing bob, damped sway and lean, slow turn to camera. -/
def updateIdle (P : Prims) (elapsed delta : ℚ) (cam : V3 ℚ) (s : AriaSt) : AriaSt :=
  let posY := P.sinf (elapsed * 0.7) * idleBreath
  let idleSway := P.sinf (elapsed * 0.5) * swayAmplitude * 0.6
  let idleLean := P.sinf (elapsed * 0.6) * leanAmplitude * 0.6
  let rz := dampM P s.rotZ idleSway 3.5 delta
  let rx := dampM P s.rotX idleLean 3.5 delta
  let tAng := P.atan2f (cam.x - s.pos.x) (cam.z - s.pos.z)
  let ry := (dampRotation P s.rotY tAng 1.4 delta).1
  { s with pos := ⟨s.pos.x, posY, s.pos.z⟩, rotZ := rz, rotX := rx, rotY := ry }

/-- updateTurningToTarget: damped yaw toward the bearing, lean and sway
damped to zero, enter walking once the rotation reports finished. -/
def updateTurningToTarget (P : Prims) (delta : ℚ) (s : AriaSt) : AriaSt :=
  let res := dampRotation P s.rotY s.targetRotation turnSpeed delta
  let s := { s with rotY := res.1,
                    rotX := dampM P s.rotX 0 4 delta,
                    rotZ := dampM P s.rotZ 0 4 delta }
  if res.2 then { s with st := .walking } else s

/-- updateWalking: advance the walk clock, eased lerp of the position
with stride bob and sway while t < 1; at t greater or equal 1 snap the
position exactly to the end point (ground level), zero lean and sway and
enter turning_to_camera. -/
def updateWalking (P : Prims) (delta : ℚ) (s : AriaSt) : AriaSt :=
  let safeDuration := max s.walkDuration 0.001
  let walkElapsed := s.walkElapsed + delta
  let walkProgress := min 1 (walkElapsed / safeDuration)
  let eased := walkProgress * walkProgress * (3 - 2 * walkProgress)
  if 1 ≤ walkProgress then
    { s with walkElapsed := walkElapsed, walkProgress := 1,
             pos := ⟨s.walkEnd.x, 0, s.walkEnd.z⟩,
             rotX := 0, rotZ := 0, st := .turningToCamera }
  else
    let stepPhase := s.stepPhase + delta * bobFrequency * 1.15
    let stride := P.sinf stepPhase
    let px := s.walkStart.x + (s.walkEnd.x - s.walkStart.x) * eased
    let pz := s.walkStart.z + (s.walkEnd.z - s.walkStart.z) * eased
    { s with walkElapsed := walkElapsed, walkProgress := walkProgress,
             stepPhase := stepPhase,
             pos := ⟨px, |stride| * bobAmplitude, pz⟩,
             rotZ := stride * swayAmplitude,
             rotX := P.sinf (stepPhase * 0.5) * leanAmplitude }

/-- updateTurningToCamera: damped yaw toward the camera bearing; when
finished, zero lean and sway, enter speaking and fire the pending walk
completion callback exactly once. -/
def updateTurningToCamera (P : Prims) (delta : ℚ) (cam : V3 ℚ) (s : AriaSt) : AriaSt :=
  let tAng := P.atan2f (cam.x - s.pos.x) (cam.z - s.pos.z)
  let res := dampRotation P s.rotY tAng turnSpeed delta
  let s := { s with rotY := res.1,
                    rotX := dampM P s.rotX 0 4 delta,
                    rotZ := dampM P s.rotZ 0 4 delta }
  if res.2 then
    let s := { s with st := .speaking, rotX := 0, rotZ := 0 }
    match s.onWalkComplete with
    | some rc => fireWalkResolver rc { s with onWalkComplete := none }
    | none => s
  else s

/-- updateSpeaking: breathing, camera tracking, a small oscillating lean
only while the speaking flag is set. -/
def updateSpeaking (P : Prims) (elapsed delta : ℚ) (cam : V3 ℚ) (s : AriaSt) : AriaSt :=
  let posY := P.sinf (elapsed * 0.8) * idleBreath
  let tAng := P.atan2f (cam.x - s.pos.x) (cam.z - s.pos.z)
  let ry := (dampRotation P s.rotY tAng 1.1 delta).1
  let speakLean := if s.speakingFlag then P.sinf (elapsed * 1.4) * leanAmplitude * 0.8 else 0
  { s with pos := ⟨s.pos.x, posY, s.pos.z⟩, rotY := ry,
           rotX := dampM P s.rotX speakLean 3.2 delta,
           rotZ := dampM P s.rotZ 0 3.2 delta }

/-- updateLightState: the speaking flicker target, smoothed by 0.1 per
frame. -/
def updateLightState (P : Prims) (elapsed : ℚ) (s : AriaSt) : AriaSt :=
  let tgt : ℚ := if s.speakingFlag then 2 + P.sinf (elapsed * 5) * 0.3 else 1
  { s with targetLightIntensity := tgt,
           lightIntensity := s.lightIntensity + (tgt - s.lightIntensity) * 0.1 }

/-- The per state dispatch of updateARIA (the switch statement). -/
def ariaDispatch (P : Prims) (elapsed delta : ℚ) (cam : V3 ℚ) (s : AriaSt) : AriaSt :=
  match s.st with
  | .idle => updateIdle P elapsed delta cam s
  | .turningToTarget => updateTurningToTarget P delta s
  | .walking => updateWalking P delta s
  | .turningToCamera => updateTurningToCamera P delta cam s
  | .speaking => updateSpeaking P elapsed delta cam s

/-- The frame delta updateARIA derives from the elapsed clock: the raw
difference to the stored last update time, a fixed 0.016 when the clock
did not advance, the whole clamped to at most 0.05. -/
def effectiveDelta (elapsed lastUpdateTime : ℚ) : ℚ :=
  let rawDelta := elapsed - lastUpdateTime
  min 0.05 (if 0 < rawDelta then rawDelta else 0.016)

/-- updateARIA(elapsed, camera, isSpeaking): clamp the delta, store the
clock and the speaking flag, dispatch on the state, update the light.
The skeletal mixer update is external (three.js) and not modeled. -/
def updateARIA (P : Prims) (elapsed : ℚ) (cam : V3 ℚ) (isSpeaking : Bool) (s : AriaSt) : AriaSt :=
  let delta := effectiveDelta elapsed s.lastUpdateTime
  let s := { s with lastUpdateTime := elapsed, speakingFlag := isSpeaking }
  updateLightState P elapsed (ariaDispatch P elapsed delta cam s)

/-- resetToStart of aria.js. -/
def resetToStart (s : AriaSt) : AriaSt :=
  { s with st := .idle, pos := ARIA_START_POS,
           rotY := 0, rotX := 0, rotZ := 0, lastUpdateTime := 0 }

/-- The events that can reach the aria module: a walkToPosition call, a
render frame, the safety timeout firing, a reset. -/
inductive AriaEv where
  | walk (target : V3 ℚ)
  | frame (elapsed : ℚ) (cam : V3 ℚ) (isSpeaking : Bool)
  | timeoutFire
  | reset
  deriving Repr

/-- One event applied to the module state. -/
def ariaStep (P : Prims) (e : AriaEv) (s : AriaSt) : AriaSt :=
  match e with
  | .walk t => walkToPosition P t s
  | .frame el cam sp => updateARIA P el cam sp s
  | .timeoutFire => walkTimeoutFire s
  | .reset => resetToStart s

/-- A sequence of events applied in order. -/
def ariaRun (P : Prims) (evs : List AriaEv) (s : AriaSt) : AriaSt :=
  evs.foldl (fun s e => ariaStep P e s) s

end Aria

namespace Camera

/-- The transition kinds transitionTo dispatches on. -/
inductive TKind where
  | start
  | productWithAria
  | custom
  | returnStart
  deriving DecidableEq, Repr

/-- The completion signal protocol state of CameraController. Geometry
(curve sampling, camera transform) is driven by external libraries (gsap,
three.js curves) and is not part of the modeled claims; the model keeps
the mode flags, the stored completion callbacks, the live tween handle,
the timers armed by the return start branch, a fresh signal counter and
the log of promise resolutions. A signal id stands for the promise a call
of transitionTo or playTour returned; resolveLog records each invocation
of resolve on it. -/
structure CamS where
  isTransitioning : Bool
  isFollowingARIA : Bool
  isOrbiting : Bool
  isTouring : Bool
  tourLoop : Bool
  onTourComplete : Option ℕ
  transitionResolve : Option ℕ
  transitionTween : Option ℕ
  returnTimers : List ℕ
  nextSig : ℕ
  resolveLog : List ℕ
  deriving DecidableEq, Repr

/-- The controller right after construction. -/
def camInit : CamS where
  isTransitioning := false
  isFollowingARIA := false
  isOrbiting := false
  isTouring := false
  tourLoop := true
  onTourComplete := none
  transitionResolve := none
  transitionTween := none
  returnTimers := []
  nextSig := 0
  resolveLog := []

/-- The finish closure a transitionTo call builds for its signal sig: it
returns without resolving when the transitionResolve field is null,
otherwise it nulls the field, ends the transition, drops the tween record
and resolves its own promise. The guard reads the current field value,
whichever closure the field holds. -/
def finishFn (sig : ℕ) (s : CamS) : CamS :=
  if s.transitionResolve = none then s
  else
    { s with transitionResolve := none, isTransitioning := false, transitionTween := none,
             resolveLog := s.resolveLog ++ [sig] }

/-- cancelTransition: kill the live tween, then take the stored resolve
callback, null the field, end the transition and invoke the callback.
The invoked callback is the finish closure of the cancelled transition,
and it runs after the field was nulled. -/
def cancelTransition (s : CamS) : CamS :=
  let s := { s with transitionTween := none }
  match s.transitionResolve with
  | none => s
  | some sig => finishFn sig { s with transitionResolve := none, isTransitioning := false }

/-- disableOrbitMode (the orbit aim readback is geometry, not modeled). -/
def disableOrbitMode (s : CamS) : CamS := { s with isOrbiting := false }

/-- enableOrbitMode: switches the mode flags (geometry not modeled). -/
def enableOrbitMode (s : CamS) : CamS :=
  { s with isOrbiting := true, isFollowingARIA := false, isTransitioning := false }

/-- followARIA(active): refused while orbiting. -/
def followARIA (active : Bool) (s : CamS) : CamS :=
  if s.isOrbiting then s else { s with isFollowingARIA := active }

/-- startTour(pathPoints, lookPoints, options): leave orbit, cancel any
transition, raise the touring flags and store the completion callback,
null for a looping tour. -/
def startTour (loop : Bool) (onComplete : Option ℕ) (s : CamS) : CamS :=
  let s := if s.isOrbiting then disableOrbitMode s else s
  let s := cancelTransition s
  { s with isTouring := true, isFollowingARIA := false, isTransitioning := false,
           tourLoop := loop, onTourComplete := if loop then none else onComplete }

/-- stopTour: a no op unless touring; ends the tour and invokes the
stored completion callback, which resolves the playTour promise. -/
def stopTour (s : CamS) : CamS :=
  if ¬s.isTouring then s
  else
    let s := { s with isTouring := false }
    match s.onTourComplete with
    | none => s
    | some sig =>
      { s with onTourComplete := none, resolveLog := s.resolveLog ++ [sig] }

/-- playTour: allocate the promise signal and start a non looping tour
whose completion callback resolves it. -/
def playTour (s : CamS) : CamS × ℕ :=
  let sig := s.nextSig
  (startTour false (some sig) { s with nextSig := s.nextSig + 1 }, sig)

/-- stopShowroomTour: ends the tour and nulls the completion callback
without invoking it. -/
def stopShowroomTour (s : CamS) : CamS :=
  { s with isTouring := false, onTourComplete := none }

/-- transitionTo(type, duration, arg1, arg2): leave orbit, end any tour
and null its completion callback, cancel any prior transition, then
allocate the new promise signal, raise the transitioning flag, store the
finish closure and arm the tween; the return start branch additionally
arms a setTimeout on the finish closure that no cancellation clears.
The gsap library is assumed present; without it the source resolves the
promise immediately and that branch is not modeled. -/
def transitionTo (kind : TKind) (s : CamS) : CamS × ℕ :=
  let s := if s.isOrbiting then disableOrbitMode s else s
  let s := { s with isTouring := false, onTourComplete := none }
  let s := cancelTransition s
  let sig := s.nextSig
  let s := { s with nextSig := s.nextSig + 1,
                    isTransitioning := true, isFollowingARIA := false,
                    transitionResolve := some sig,
                    transitionTween := some sig }
  let s := if kind = .returnStart then { s with returnTimers := s.returnTimers ++ [sig] } else s
  (s, sig)

/-- The gsap tween of the live transition completing: its onComplete is
the finish closure of the transition that armed it. -/
def tweenComplete (s : CamS) : CamS :=
  match s.transitionTween with
  | some sig => finishFn sig s
  | none => s

/-- A return start setTimeout firing: it invokes the finish closure of
the transition that armed it, whether or not that transition is still
the live one. -/
def returnTimerFire (sig : ℕ) (s : CamS) : CamS :=
  if sig ∈ s.returnTimers then finishFn sig { s with returnTimers := s.returnTimers.erase sig }
  else s

/-- A non looping tour reaching the end of its single pass inside
update: end the tour and invoke the stored completion callback. -/
def tourFinish (s : CamS) : CamS :=
  if s.isTouring ∧ ¬s.tourLoop then
    let s := { s with isTouring := false }
    match s.onTourComplete with
    | none => s
    | some sig =>
      { s with onTourComplete := none, resolveLog := s.resolveLog ++ [sig] }
  else s

/-- Every way the controller state can change. -/
inductive CamEv where
  | tweenCompleteEv
  | returnTimerFireEv (sig : ℕ)
  | tourFinishEv
  | cancelTransitionEv
  | stopTourEv
  | stopShowroomTourEv
  | startTourEv (loop : Bool)
  | playTourEv
  | transitionToEv (kind : TKind)
  | enableOrbitEv
  | disableOrbitEv
  | followEv (active : Bool)
  deriving DecidableEq, Repr

/-- One controller event applied to the state. A startTour from outside
playTour carries no completion callback (the showroom tour path). -/
def camStep (e : CamEv) (s : CamS) : CamS :=
  match e with
  | .tweenCompleteEv => tweenComplete s
  | .returnTimerFireEv sig => returnTimerFire sig s
  | .tourFinishEv => tourFinish s
  | .cancelTransitionEv => cancelTransition s
  | .stopTourEv => stopTour s
  | .stopShowroomTourEv => stopShowroomTour s
  | .startTourEv loop => startTour loop none s
  | .playTourEv => (playTour s).1
  | .transitionToEv kind => (transitionTo kind s).1
  | .enableOrbitEv => enableOrbitMode s
  | .disableOrbitEv => disableOrbitMode s
  | .followEv b => followARIA b s

/-- A sequence of controller events applied in order. -/
def camRun (evs : List CamEv) (s : CamS) : CamS :=
  evs.foldl (fun s e => camStep e s) s

/-- The trigonometric primitives the path generator takes from the
runtime (Math.cos, Math.sin, Math.PI, Math.atan2), abstracted so the
generator is a computable function; theorems instantiate them with the
real functions. -/
structure TrigFns (α : Type) where
  cosf : α → α
  sinf : α → α
  piv : α
  atan2f : α → α → α

/-- The position path playProductCinematic builds: the target is the
product center with its height clamped to at least 0.5; the start angle
is the camera bearing around the target; for a product far off axis the
radius is clamped; the path is the current camera position followed by
segments + 1 points around the target, evenly spaced in angle from the
start angle, each with a small vertical sine lift. The base radius and
the requested radius and height come from the product bounds and the
options at the call site. -/
def playProductCinematicPath {α : Type} [LinearOrderedField α] (T : TrigFns α)
    (cam center : V3 α) (baseRadius radius height : α) (segments : ℕ) : List (V3 α) :=
  let target : V3 α := ⟨center.x, max (1 / 2) center.y, center.z⟩
  let startAngle := T.atan2f (cam.z - target.z) (cam.x - target.x)
  let r := if 4 < |target.x| then max baseRadius (min radius (38 / 10)) else radius
  cam ::
    (List.range (segments + 1)).map (fun (i : ℕ) =>
      let frac : α := (i : α) / (segments : α)
      let angle := startAngle + T.piv * 2 * frac
      let lift := T.sinf (frac * T.piv * 2) * (2 / 10)
      ⟨target.x + T.cosf angle * r, height + lift, target.z + T.sinf angle * r⟩)

/-- Modelled from the spec: buildOrbitShot(targetCenter, radius, height,
segments, startAngle) produces segments + 1 points evenly spaced in
angle around the target starting from startAngle, with a small vertical
sine lift per segment. Stated for comparison with the path the source
builds inside playProductCinematic. -/
def buildOrbitShot {α : Type} [LinearOrderedField α] (T : TrigFns α)
    (targetCenter : V3 α) (radius height : α) (segments : ℕ) (startAngle : α) : List (V3 α) :=
  (List.range (segments + 1)).map (fun (i : ℕ) =>
    let frac : α := (i : α) / (segments : α)
    let angle := startAngle + T.piv * 2 * frac
    let lift := T.sinf (frac * T.piv * 2) * (2 / 10)
    ⟨targetCenter.x + T.cosf angle * radius, height + lift,
     targetCenter.z + T.sinf angle * radius⟩)

/-- The real interpretation of the trig primitives; atan2(y, x) is the
argument of the complex number x + y i, which matches Math.atan2 on its
whole domain. -/
noncomputable def realTrig : TrigFns ℝ where
  cosf := Real.cos
  sinf := Real.sin
  piv := Real.pi
  atan2f := fun y x => Complex.arg ⟨x, y⟩

end Camera

namespace Orch

/-- The valid collections (VALID_COLLECTIONS of main.js); requests for
anything else are dropped before reaching the sequencer. -/
inductive Col where
  | elegance
  | minimal
  | luxury
  deriving DecidableEq, Repr, Fintype

/-- Why a cinematic was cancelled: the user stop button, or a
superseding collection request. -/
inductive CReason where
  | user
  | sswitch
  deriving DecidableEq, Repr

/-- The per cinematic state main.js creates (createCinematicState):
cancelled flag, reason, and whether its promise has been resolved. -/
structure CinS where
  cancelled : Bool
  reason : Option CReason
  resolved : Bool
  deriving DecidableEq, Repr

/-- The externally visible actions a workflow run performs, in order.
terminalE marks the workflow reaching its final block (the product panel
reveal), the terminal workflow execution of the claims. -/
inductive Eff where
  | cancelCinematicE (reason : CReason)
  | cancelTransitionE
  | stopTourE
  | disableOrbitE
  | hideUiE
  | prepareAudioE (c : Col)
  | walkStartE (c : Col)
  | followE (active : Bool)
  | transitionStartE
  | cinematicStartE (c : Col)
  | terminalE (c : Col) (rid : ℕ)
  deriving DecidableEq, Repr

/-- The module state of main.js the sequencer touches: the single flight
lock, the monotonically increasing request id, the single pending
request slot, the global cinematic state, the camera controller and the
effect log. The intro path (introState, skipIntro) is not modeled; every
scenario below starts after the intro finished (introState null in the
source), which is the premise of the claims. -/
structure OrchSt where
  lock : Bool
  reqId : ℕ
  pending : Option Col
  cin : Option CinS
  cam : Camera.CamS
  effects : List Eff
  deriving DecidableEq, Repr

/-- The sequencer state right after startup (intro already over). -/
def orchInit : OrchSt where
  lock := false
  reqId := 0
  pending := none
  cin := none
  cam := Camera.camInit
  effects := []

/-- cancelActiveCinematic(reason): a no op when there is no live
uncancelled cinematic; otherwise mark it cancelled with the reason, stop
the audio (external), stop the camera tour (which resolves the cinematic
tour promise), hide the subtitle and stop button (ui, not modeled) and
resolve the cinematic race promise. -/
def cancelActiveCinematic (r : CReason) (s : OrchSt) : OrchSt :=
  match s.cin with
  | none => s
  | some c =>
    if c.cancelled then s
    else
      { s with cin := some ⟨true, some r, true⟩,
               cam := Camera.stopTour s.cam,
               effects := s.effects ++ [.cancelCinematicE r, .stopTourE] }

/-- The camera teardown calls requestCollection and
handleCollectionSelect both issue: cancelTransition, stopTour,
disableOrbitMode. -/
def camCancelBundle (s : OrchSt) : OrchSt :=
  { s with
      cam := Camera.disableOrbitMode (Camera.stopTour (Camera.cancelTransition s.cam)),
      effects := s.effects ++ [.cancelTransitionE, .stopTourE, .disableOrbitE] }

/-- requestCollection arriving while the lock is held: store the request
in the single pending slot (overwriting any previous pending request),
bump the request id, cancel the active cinematic with reason switch and
tear down the camera sub operations, then return. -/
def arrivalStep (c : Col) (s : OrchSt) : OrchSt :=
  let s := { s with pending := some c, reqId := s.reqId + 1 }
  camCancelBundle (cancelActiveCinematic .sswitch s)

/-- The requests that arrive while the workflow is suspended at one
await, applied in arrival order. -/
def arrive (cs : List Col) (s : OrchSt) : OrchSt :=
  cs.foldl (fun s c => arrivalStep c s) s

/-- Awaiting the promise of a camera transition with signal sig: when
the tween is still armed after the suspension it completes naturally and
resolves the promise; otherwise the await only finishes if the promise
was already resolved, and the workflow is suspended forever when it was
not (the Bool is false exactly then). -/
def awaitTransition (sig : ℕ) (s : OrchSt) : OrchSt × Bool :=
  if s.cam.transitionTween = some sig then
    ({ s with cam := Camera.tweenComplete s.cam }, true)
  else (s, decide (sig ∈ s.cam.resolveLog))

/-- Whether the race promise of the live cinematic has been resolved. -/
def cinResolved (s : OrchSt) : Bool :=
  match s.cin with
  | some c => c.resolved
  | none => false

/-- One workflow of handleCollectionSelect for collection c captured
under request id myId. arr gives, per await boundary 0..5, the requests
that arrive during that suspension. Returns the state and whether the
workflow function returned (true) or is suspended forever at an await
whose promise can no longer resolve (false); only in the first case does
the finally block of requestCollection run. Block structure mirrors the
source: teardown and checks, the 300ms and 500ms waits, the walk (whose
promise arrivals never cancel), camera follow, the product framing
transition, the narration plus cinematic race, the final framing
transition, then the terminal ui block. -/
def runWorkflow (c : Col) (myId : ℕ) (arr : List (List Col)) (s : OrchSt) : OrchSt × Bool :=
  -- block 0: cancelActiveCinematic, camera teardown, check, ui hide, audio prepare
  let s := camCancelBundle (cancelActiveCinematic .sswitch s)
  if myId ≠ s.reqId then (s, true) else
  let s := { s with effects := s.effects ++ [Eff.hideUiE, .prepareAudioE c] }
  let s := arrive (arr.getD 0 []) s
  -- block 1: check, start the avatar walk
  if myId ≠ s.reqId then (s, true) else
  let s := { s with effects := s.effects ++ [Eff.walkStartE c] }
  let s := arrive (arr.getD 1 []) s
  -- block 2: check, camera follow on; then await the walk promise
  if myId ≠ s.reqId then (s, true) else
  let s := { s with cam := Camera.followARIA true s.cam, effects := s.effects ++ [Eff.followE true] }
  let s := arrive (arr.getD 2 []) s
  -- block 3: check, follow off, ease to product framing and await it
  if myId ≠ s.reqId then (s, true) else
  let s := { s with cam := Camera.followARIA false s.cam,
                    effects := s.effects ++ [Eff.followE false] }
  let pr := Camera.transitionTo .productWithAria s.cam
  let s := { s with cam := pr.1, effects := s.effects ++ [Eff.transitionStartE] }
  let s := arrive (arr.getD 3 []) s
  let aw := awaitTransition pr.2 s
  if ¬aw.2 then (aw.1, false) else
  let s := aw.1
  -- block 4: check, start the cinematic (narration race not further modeled:
  -- the narration promise resolves on its own, the tour on finishing or on
  -- stopTour, the race promise on cancelActiveCinematic)
  if myId ≠ s.reqId then (s, true) else
  let s := { s with cin := some ⟨false, none, false⟩,
                    effects := s.effects ++ [Eff.cinematicStartE c] }
  let tpr := Camera.playTour s.cam
  let s := { s with cam := tpr.1 }
  let s := arrive (arr.getD 4 []) s
  let s := if cinResolved s then s else { s with cam := Camera.tourFinish s.cam }
  -- block 5: check, the switch cancellation early return, then the final
  -- framing transition and its await
  if myId ≠ s.reqId then (s, true) else
  let switchCancelled : Bool :=
    match s.cin with
    | some cst => cst.cancelled && decide (cst.reason = some CReason.sswitch)
    | none => false
  if switchCancelled then ({ s with cin := none }, true) else
  let s := { s with cin := none }
  let fr := Camera.transitionTo .custom s.cam
  let s := { s with cam := fr.1, effects := s.effects ++ [Eff.transitionStartE] }
  let s := arrive (arr.getD 5 []) s
  let aw2 := awaitTransition fr.2 s
  if ¬aw2.2 then (aw2.1, false) else
  let s := aw2.1
  -- block 6: check, terminal ui block
  if myId ≠ s.reqId then (s, true) else
  ({ s with effects := s.effects ++ [Eff.terminalE c myId] }, true)

/-- requestCollection(c) in the idle state and its finally block: take
the lock, allocate the request id, run the workflow; when the workflow
function returns, release the lock and start the pending request if one
was stored (the burst being over, the continued request sees no further
arrivals); when the workflow is suspended forever the finally block
never runs and the lock is never released. A call that finds the lock
held is the arrival path. The fuel bounds the recursion through the
pending slot and every claim uses enough of it. -/
def requestCollection : ℕ → Col → List (List Col) → OrchSt → OrchSt
  | 0, _, _, s => s
  | fuel + 1, c, arr, s =>
    if s.lock then arrivalStep c s
    else
      let s := { s with lock := true, reqId := s.reqId + 1 }
      let myId := s.reqId
      let res := runWorkflow c myId arr s
      if res.2 then
        let s := { res.1 with lock := false }
        match s.pending with
        | none => s
        | some c2 => requestCollection fuel c2 [] { s with pending := none }
      else res.1

/-- The terminal workflow executions a state has seen. -/
def terminals (s : OrchSt) : List Eff :=
  s.effects.filter (fun e =>
    match e with
    | .terminalE _ _ => true
    | _ => false)

/-- The burst schedule of the claims: requests b then c both arriving at
await boundary k of the active workflow. -/
def burstArr (k : ℕ) (b c : Col) : List (List Col) :=
  (List.range 6).map (fun i => if i = k then [b, c] else [])

end Orch

section Theorems

open Aria Camera Orch

/-- A concrete interpretation of the abstract runtime primitives, used
by witnesses; its square root agrees with Math.sqrt at the one input the
walk example evaluates. -/
def P0 : Prims where
  sinf := fun _ => 0
  expf := fun _ => 0
  atan2f := fun _ _ => 0
  sqrtf := fun q => if q = 49 then 7 else 0

/-- No live reference to signal sig remains in the controller state: no
stored callback, tween or timer can ever pass sig to a resolver again,
and every signal allocated later is distinct from it. -/
def camNoRef (sig : ℕ) (s : CamS) : Prop :=
  s.onTourComplete ≠ some sig ∧ s.transitionResolve ≠ some sig ∧
  s.transitionTween ≠ some sig ∧ sig ∉ s.returnTimers ∧ sig < s.nextSig

/-- Whether an event is a walkToPosition call. -/
def isWalkEv : AriaEv → Bool
  | .walk _ => true
  | _ => false

/-- The resolver related fields: pendingWalkResolve, onWalkComplete,
pendingWalkTimeout, walkRequestId and the resolution log. -/
def rview (s : AriaSt) : Option ℕ × Option ℕ × Option ℕ × ℕ × List ℕ :=
  (s.pendingWalkResolve, s.onWalkComplete, s.pendingWalkTimeout, s.walkRequestId, s.resolveLog)

/-- The invariant holding between the first walkToPosition call and its
resolution: the request counter is at one, every stored callback or
timer belongs to request one, and as long as the promise of request one
has not been resolved its resolver is still armed. -/
def PreInv (s : AriaSt) : Prop :=
  s.walkRequestId = 1 ∧
  (s.onWalkComplete = none ∨ s.onWalkComplete = some 1) ∧
  (s.pendingWalkTimeout = none ∨ s.pendingWalkTimeout = some 1) ∧
  (s.pendingWalkResolve = none ∨ s.pendingWalkResolve = some 1) ∧
  (s.resolveLog.count 1 = 0 → s.pendingWalkResolve = some 1)

/-- No live reference to walk request r remains: no stored callback or
timer can pass r to a resolver again, and every later request id is
larger. -/
def NoRefA (r : ℕ) (s : AriaSt) : Prop :=
  s.pendingWalkResolve ≠ some r ∧ s.onWalkComplete ≠ some r ∧
  s.pendingWalkTimeout ≠ some r ∧ r < s.walkRequestId

/-- The upper wrap loop is the identity at or below the threshold. -/
lemma wrapHi_of_le (n : ℕ) (d : ℚ) (h : d ≤ piQ) : wrapHi n d = d := by
  cases n with
  | zero => rfl
  | succ m => simp [wrapHi, not_lt.mpr h]

/-- The lower wrap loop is the identity at or above the threshold. -/
lemma wrapLo_of_le (n : ℕ) (d : ℚ) (h : -piQ ≤ d) : wrapLo n d = d := by
  cases n with
  | zero => rfl
  | succ m => simp [wrapLo, not_lt.mpr h]

/-- Inside the angular tolerance, the wrapped difference is the plain
difference and dampRotation returns the target with finished set. -/
lemma dampRotation_of_small (P : Prims) (current target speed dt : ℚ)
    (h : |target - current| < ANGLE_TOLERANCE) :
    dampRotation P current target speed dt = (target, true) := by
  have htol : ANGLE_TOLERANCE ≤ piQ := by norm_num [ANGLE_TOLERANCE, piQ]
  have hle : target - current ≤ piQ :=
    le_trans (le_of_lt (lt_of_le_of_lt (le_abs_self _) h)) htol
  have hge : -piQ ≤ target - current := by
    have := lt_of_le_of_lt (neg_le_abs _) (lt_of_lt_of_le h htol)
    linarith [neg_abs_le (target - current)]
  unfold dampRotation
  rw [wrapHi_of_le _ _ hle, wrapLo_of_le _ _ hge]
  simp [h]

/-- C7. dampRotation is idempotent at its fixed point: with the target
within the 0.004 rad tolerance of the current angle, the call reports
finished and returns the target; calling again from that value keeps
returning it with finished set, for any number of repetitions and any
interpretation of Math.exp. -/
theorem dampRotation_fixed_point (P : Prims) (current target speed dt : ℚ)
    (h : |target - current| < ANGLE_TOLERANCE) :
    dampRotation P current target speed dt = (target, true) ∧
    dampRotation P target target speed dt = (target, true) ∧
    ∀ n : ℕ, (fun v => (dampRotation P v target speed dt).1)^[n] target = target := by
  have hself : dampRotation P target target speed dt = (target, true) := by
    apply dampRotation_of_small
    simp [ANGLE_TOLERANCE]
    norm_num
  refine ⟨dampRotation_of_small P current target speed dt h, hself, ?_⟩
  intro n
  induction n with
  | zero => rfl
  | succ k ih => rw [Function.iterate_succ_apply]; simp only [hself]; exact ih

/-- The tolerance bound at the concrete witness input. -/
lemma small_tol_witness : |(1 / 1000 : ℚ) - 0| < ANGLE_TOLERANCE := by
  rw [sub_zero, abs_of_pos (by norm_num)]
  norm_num [ANGLE_TOLERANCE]

/-- Witness for C7 at a concrete input. -/
theorem dampRotation_fixed_point_witness :
    |(1 / 1000 : ℚ) - 0| < ANGLE_TOLERANCE ∧
    dampRotation P0 0 (1 / 1000) 2.4 (1 / 60) = (1 / 1000, true) ∧
    (fun v => (dampRotation P0 v (1 / 1000) 2.4 (1 / 60)).1)^[3] (1 / 1000) = 1 / 1000 :=
  ⟨small_tol_witness,
   (dampRotation_fixed_point P0 0 (1 / 1000) 2.4 (1 / 60) small_tol_witness).1,
   (dampRotation_fixed_point P0 0 (1 / 1000) 2.4 (1 / 60) small_tol_witness).2.2 3⟩

/-- The walking update always advances the walk clock by the delta. -/
lemma updateWalking_walkElapsed (P : Prims) (d : ℚ) (s : AriaSt) :
    (updateWalking P d s).walkElapsed = s.walkElapsed + d := by
  unfold updateWalking
  dsimp only
  split <;> rfl

/-- C9. The per frame update clamps the effective time step: it is the
raw elapsed difference, 0.016 when the clock did not advance, and never
more than 0.05; in the walking state the walk clock advances by exactly
this clamped step. -/
theorem updateARIA_delta_clamped (P : Prims) (elapsed : ℚ) (cam : V3 ℚ) (sp : Bool)
    (s : AriaSt) :
    effectiveDelta elapsed s.lastUpdateTime ≤ 0.05 ∧
    (elapsed - s.lastUpdateTime ≤ 0 → effectiveDelta elapsed s.lastUpdateTime = 0.016) ∧
    (0 < elapsed - s.lastUpdateTime → effectiveDelta elapsed s.lastUpdateTime
        = min 0.05 (elapsed - s.lastUpdateTime)) ∧
    (s.st = .walking →
      (updateARIA P elapsed cam sp s).walkElapsed
        = s.walkElapsed + effectiveDelta elapsed s.lastUpdateTime) := by
  refine ⟨min_le_left _ _, ?_, ?_, ?_⟩
  · intro h
    simp [effectiveDelta, not_lt.mpr h]
    norm_num
  · intro h
    simp [effectiveDelta, h]
  · intro hst
    show (updateLightState P elapsed (ariaDispatch P elapsed _ cam _)).walkElapsed = _
    rw [updateLightState]
    show (ariaDispatch P elapsed _ cam _).walkElapsed = _
    rw [ariaDispatch]
    simp only [hst]
    exact updateWalking_walkElapsed P _ _

/-- Witness for C9 (the theorem quantifies only over data; this applies
it at one input and exhibits the clamp at a large frame gap). -/
theorem updateARIA_delta_clamped_witness :
    effectiveDelta 100 0 ≤ 0.05 ∧ effectiveDelta 100 0 = 0.05 :=
  ⟨(updateARIA_delta_clamped P0 100 ⟨0, 0, 0⟩ false ariaInit).1, by
    simp only [effectiveDelta]
    norm_num⟩

/-- Fields of the walking update in the non snap branch. -/
lemma updateWalking_nonsnap (P : Prims) (d : ℚ) (s : AriaSt)
    (h : ¬ 1 ≤ min 1 ((s.walkElapsed + d) / max s.walkDuration 0.001)) :
    (updateWalking P d s).st = s.st ∧
    (updateWalking P d s).walkElapsed = s.walkElapsed + d ∧
    (updateWalking P d s).walkDuration = s.walkDuration ∧
    (updateWalking P d s).walkEnd = s.walkEnd := by
  unfold updateWalking
  dsimp only
  rw [if_neg h]
  exact ⟨rfl, rfl, rfl, rfl⟩

/-- Fields of the walking update in the snap branch. -/
lemma updateWalking_snap (P : Prims) (d : ℚ) (s : AriaSt)
    (h : 1 ≤ min 1 ((s.walkElapsed + d) / max s.walkDuration 0.001)) :
    updateWalking P d s =
      { s with walkElapsed := s.walkElapsed + d, walkProgress := 1,
               pos := ⟨s.walkEnd.x, 0, s.walkEnd.z⟩,
               rotX := 0, rotZ := 0, st := .turningToCamera } := by
  unfold updateWalking
  dsimp only
  rw [if_pos h]

/-- Driving the walking state with positive frame deltas whose total
reaches the walk duration exactly at the last frame snaps the position
to the ground projected end point, zeroes lean and sway and moves the
machine to turning_to_camera. -/
lemma walking_fold_snap (P : Prims) (el : ℚ) (cam : V3 ℚ) :
    ∀ (ds : List ℚ) (s : AriaSt),
      s.st = .walking →
      (0.001 : ℚ) ≤ s.walkDuration →
      (∀ d ∈ ds, 0 < d) →
      ds ≠ [] →
      s.walkElapsed + ds.dropLast.sum < s.walkDuration →
      s.walkDuration ≤ s.walkElapsed + ds.sum →
      (ds.foldl (fun s d => ariaDispatch P el d cam s) s).pos
          = ⟨s.walkEnd.x, 0, s.walkEnd.z⟩ ∧
      (ds.foldl (fun s d => ariaDispatch P el d cam s) s).st = .turningToCamera ∧
      (ds.foldl (fun s d => ariaDispatch P el d cam s) s).rotX = 0 ∧
      (ds.foldl (fun s d => ariaDispatch P el d cam s) s).rotZ = 0 ∧
      (ds.foldl (fun s d => ariaDispatch P el d cam s) s).walkEnd = s.walkEnd := by
  intro ds
  induction ds with
  | nil => intro s _ _ _ hne _ _; exact absurd rfl hne
  | cons d t ih =>
    intro s hst hdur hpos hne hlt hge
    have hdpos : (0 : ℚ) < s.walkDuration := lt_of_lt_of_le (by norm_num) hdur
    have hsafe : max s.walkDuration 0.001 = s.walkDuration := max_eq_left hdur
    have hdisp : ariaDispatch P el d cam s = updateWalking P d s := by
      unfold ariaDispatch
      rw [hst]
    rw [List.foldl_cons, hdisp]
    by_cases ht : t = []
    · subst ht
      have hd1 : s.walkDuration ≤ s.walkElapsed + d := by
        simpa using hge
      have hcond : 1 ≤ min 1 ((s.walkElapsed + d) / max s.walkDuration 0.001) := by
        rw [hsafe]
        exact le_min le_rfl ((one_le_div hdpos).mpr hd1)
      rw [List.foldl_nil, updateWalking_snap P d s hcond]
      exact ⟨rfl, rfl, rfl, rfl, rfl⟩
    · have hdl : (d :: t).dropLast = d :: t.dropLast := List.dropLast_cons_of_ne_nil ht
      have hpt : ∀ x ∈ t, 0 < x := fun x hx => hpos x (List.mem_cons_of_mem _ hx)
      have hdlnn : 0 ≤ t.dropLast.sum :=
        List.sum_nonneg fun x hx => le_of_lt (hpt x (List.dropLast_subset t hx))
      have hlt2 : s.walkElapsed + d + t.dropLast.sum < s.walkDuration := by
        rw [hdl] at hlt
        simp only [List.sum_cons] at hlt
        linarith
      have hnew_lt : s.walkElapsed + d < s.walkDuration := by linarith
      have hcond : ¬ 1 ≤ min 1 ((s.walkElapsed + d) / max s.walkDuration 0.001) := by
        rw [hsafe]
        exact not_le.mpr
          (lt_of_le_of_lt (min_le_right _ _) ((div_lt_one hdpos).mpr hnew_lt))
      obtain ⟨h1, h2, h3, h4⟩ := updateWalking_nonsnap P d s hcond
      have hge2 : (updateWalking P d s).walkDuration
          ≤ (updateWalking P d s).walkElapsed + t.sum := by
        rw [h2, h3]
        simp only [List.sum_cons] at hge
        linarith
      have hlt3 : (updateWalking P d s).walkElapsed + t.dropLast.sum
          < (updateWalking P d s).walkDuration := by
        rw [h2, h3]
        linarith
      have hres := ih (updateWalking P d s) (h1.trans hst) (h3 ▸ hdur) hpt ht hlt3 hge2
      rw [h4] at hres
      exact hres

/-- The walk setup fields walkToPosition establishes, for any prior
state: ground projected end point, reset clock, turning state, the new
request id installed in both callback slots and the timeout, and the
safety timeout of max(8000 ms, duration times 1500). -/
lemma walkToPosition_fields (P : Prims) (t : V3 ℚ) (s : AriaSt) :
    (walkToPosition P t s).walkEnd = ⟨t.x, 0, t.z⟩ ∧
    (walkToPosition P t s).walkElapsed = 0 ∧
    (walkToPosition P t s).st = .turningToTarget ∧
    (walkToPosition P t s).walkRequestId = s.walkRequestId + 1 ∧
    (walkToPosition P t s).pendingWalkResolve = some (s.walkRequestId + 1) ∧
    (walkToPosition P t s).onWalkComplete = some (s.walkRequestId + 1) ∧
    (walkToPosition P t s).pendingWalkTimeout = some (s.walkRequestId + 1) ∧
    (walkToPosition P t s).timeoutMs
      = max 8000 ((walkToPosition P t s).walkDuration * 1500) := by
  unfold walkToPosition fireWalkResolver promiseResolve
  cases h : s.pendingWalkResolve with
  | none => exact ⟨rfl, rfl, rfl, rfl, rfl, rfl, rfl, rfl⟩
  | some r =>
    dsimp only
    by_cases hr : r ≠ s.walkRequestId
    · rw [if_pos hr]
      exact ⟨rfl, rfl, rfl, rfl, rfl, rfl, rfl, rfl⟩
    · rw [if_neg hr]
      exact ⟨rfl, rfl, rfl, rfl, rfl, rfl, rfl, rfl⟩

/-- The duration formula of walkToPosition over any prior state. -/
lemma walkToPosition_duration (P : Prims) (t : V3 ℚ) (s : AriaSt) :
    (walkToPosition P t s).walkDuration
      = max 3.6 (P.sqrtf ((t.x - s.pos.x) ^ 2 + (0 - s.pos.y) ^ 2 + (t.z - s.pos.z) ^ 2)
            / walkSpeed) := by
  unfold walkToPosition fireWalkResolver promiseResolve
  cases h : s.pendingWalkResolve with
  | none => rfl
  | some r =>
    dsimp only
    by_cases hr : r ≠ s.walkRequestId
    · rw [if_pos hr]
    · rw [if_neg hr]

/-- C5. The example walk: from the start position (0, 0, 2), a walk to
(0, 0, -5) covers distance 7 and gets duration max(3.6, 7 / 1.1), which
is exactly 70/11 seconds (the 6.36 of the spec rounded to two decimals);
once the machine is walking, any sequence of positive frame deltas whose
accumulated walk clock reaches the duration at its last frame leaves the
avatar exactly at (0, 0, -5) in state turning_to_camera with lean and
sway zeroed. The entry rotations are arbitrary since the turn phase only
changes rotations, never the walk clock or geometry. -/
theorem walk_example_duration_and_snap (P : Prims) (rx ry rz el : ℚ) (cam : V3 ℚ)
    (ds : List ℚ)
    (hsq : P.sqrtf 49 = 7)
    (hpos : ∀ d ∈ ds, 0 < d) (hne : ds ≠ [])
    (hlt : ds.dropLast.sum < 70 / 11) (hge : (70 : ℚ) / 11 ≤ ds.sum) :
    (walkToPosition P ⟨0, 0, -5⟩ ariaInit).walkDuration = max 3.6 (7 / 1.1) ∧
    (walkToPosition P ⟨0, 0, -5⟩ ariaInit).walkDuration = 70 / 11 ∧
    (ds.foldl (fun s d => ariaDispatch P el d cam s)
        { walkToPosition P ⟨0, 0, -5⟩ ariaInit with
            st := .walking, rotX := rx, rotY := ry, rotZ := rz }).pos = ⟨0, 0, -5⟩ ∧
    (ds.foldl (fun s d => ariaDispatch P el d cam s)
        { walkToPosition P ⟨0, 0, -5⟩ ariaInit with
            st := .walking, rotX := rx, rotY := ry, rotZ := rz }).st = .turningToCamera ∧
    (ds.foldl (fun s d => ariaDispatch P el d cam s)
        { walkToPosition P ⟨0, 0, -5⟩ ariaInit with
            st := .walking, rotX := rx, rotY := ry, rotZ := rz }).rotX = 0 ∧
    (ds.foldl (fun s d => ariaDispatch P el d cam s)
        { walkToPosition P ⟨0, 0, -5⟩ ariaInit with
            st := .walking, rotX := rx, rotY := ry, rotZ := rz }).rotZ = 0 := by
  have hdur2 : (walkToPosition P ⟨0, 0, -5⟩ ariaInit).walkDuration = 70 / 11 := by
    rw [walkToPosition_duration]
    norm_num [ariaInit, ARIA_START_POS]
    rw [hsq, max_eq_right (by norm_num [walkSpeed])]
    norm_num [walkSpeed]
  have hdur : (walkToPosition P ⟨0, 0, -5⟩ ariaInit).walkDuration = max 3.6 (7 / 1.1) := by
    rw [hdur2, max_eq_right (by norm_num)]
    norm_num
  obtain ⟨hend, helap, -, -, -, -, -, -⟩ :=
    walkToPosition_fields P (⟨0, 0, -5⟩ : V3 ℚ) ariaInit
  set sw : AriaSt :=
    { walkToPosition P ⟨0, 0, -5⟩ ariaInit with
        st := .walking, rotX := rx, rotY := ry, rotZ := rz } with hsw
  have hswdur : sw.walkDuration = 70 / 11 := hdur2
  have hswelap : sw.walkElapsed = 0 := helap
  have hswend : sw.walkEnd = ⟨0, 0, -5⟩ := hend
  have hsnap := walking_fold_snap P el cam ds sw rfl
    (by rw [hswdur]; norm_num) hpos hne
    (by rw [hswdur, hswelap]; linarith)
    (by rw [hswdur, hswelap]; linarith)
  rw [hswend] at hsnap
  exact ⟨hdur, hdur2, hsnap.1, hsnap.2.1, hsnap.2.2.1, hsnap.2.2.2.1⟩

/-- Witness for C5: a run of 127 frames of 0.05 s followed by one more,
crossing the 70/11 s duration exactly at the last frame. -/
theorem walk_example_duration_and_snap_witness :
    (P0.sqrtf 49 = 7 ∧
      (∀ d ∈ List.replicate 127 (1 / 20 : ℚ) ++ [1 / 20], 0 < d) ∧
      (List.replicate 127 (1 / 20 : ℚ) ++ [1 / 20] ≠ []) ∧
      (List.replicate 127 (1 / 20 : ℚ) ++ [1 / 20]).dropLast.sum < 70 / 11 ∧
      (70 : ℚ) / 11 ≤ (List.replicate 127 (1 / 20 : ℚ) ++ [1 / 20]).sum) ∧
    (walkToPosition P0 ⟨0, 0, -5⟩ ariaInit).walkDuration = max 3.6 (7 / 1.1) ∧
    ((List.replicate 127 (1 / 20 : ℚ) ++ [1 / 20]).foldl
        (fun s d => ariaDispatch P0 0 d ⟨0, 0, 0⟩ s)
        { walkToPosition P0 ⟨0, 0, -5⟩ ariaInit with
            st := .walking, rotX := 0, rotY := 0, rotZ := 0 }).pos = ⟨0, 0, -5⟩ := by
  have h1 : P0.sqrtf 49 = 7 := by simp [P0]
  have h2 : ∀ d ∈ List.replicate 127 (1 / 20 : ℚ) ++ [1 / 20], 0 < d := by
    intro d hd
    rcases List.mem_append.mp hd with h | h
    · rw [(List.eq_of_mem_replicate h)]; norm_num
    · rw [List.mem_singleton.mp h]; norm_num
  have h3 : List.replicate 127 (1 / 20 : ℚ) ++ [1 / 20] ≠ [] := by simp
  have h4 : (List.replicate 127 (1 / 20 : ℚ) ++ [1 / 20]).dropLast.sum < 70 / 11 := by
    rw [List.dropLast_concat, List.sum_replicate]
    norm_num
  have h5 : (70 : ℚ) / 11 ≤ (List.replicate 127 (1 / 20 : ℚ) ++ [1 / 20]).sum := by
    rw [List.sum_append, List.sum_replicate]
    norm_num
  have := walk_example_duration_and_snap P0 0 0 0 0 ⟨0, 0, 0⟩
    (List.replicate 127 (1 / 20 : ℚ) ++ [1 / 20]) h1 h2 h3 h4 h5
  exact ⟨⟨h1, h2, h3, h4, h5⟩, this.1, this.2.2.1⟩

/-- C10. The walk end point is ground projected for every requested
target: its y is exactly 0; consequently both completion paths leave the
avatar at height 0: the natural snap at walk progress 1 and the safety
timeout snap. -/
theorem walk_target_ground_projected (P : Prims) (t : V3 ℚ) (s : AriaSt) :
    (walkToPosition P t s).walkEnd.y = 0 ∧
    (∀ (el : ℚ) (cam : V3 ℚ) (ds : List ℚ) (sw : AriaSt),
      sw.st = .walking → (0.001 : ℚ) ≤ sw.walkDuration →
      (∀ d ∈ ds, 0 < d) → ds ≠ [] →
      sw.walkElapsed + ds.dropLast.sum < sw.walkDuration →
      sw.walkDuration ≤ sw.walkElapsed + ds.sum →
      (ds.foldl (fun s d => ariaDispatch P el d cam s) sw).pos.y = 0) ∧
    (∀ (s1 : AriaSt) (r : ℕ),
      s1.pendingWalkTimeout = some r → r = s1.walkRequestId →
      s1.st ≠ .idle → s1.st ≠ .speaking →
      (walkTimeoutFire s1).pos.y = 0) := by
  refine ⟨(walkToPosition_fields P t s).1 ▸ rfl, ?_, ?_⟩
  · intro el cam ds sw h1 h2 h3 h4 h5 h6
    rw [(walking_fold_snap P el cam ds sw h1 h2 h3 h4 h5 h6).1]
  · intro s1 r h1 h2 h3 h4
    unfold walkTimeoutFire
    rw [h1]
    dsimp only
    rw [if_neg (by simp [h2]), if_pos ⟨h3, h4⟩]
    cases h5 : s1.onWalkComplete with
    | none => rfl
    | some rc =>
      dsimp only
      unfold fireWalkResolver promiseResolve
      by_cases hrc : rc ≠ s1.walkRequestId
      · rw [if_pos hrc]
      · rw [if_neg hrc]

/-- Witness for C10 at a concrete target with nonzero y. -/
theorem walk_target_ground_projected_witness :
    (walkToPosition P0 ⟨1, 5, 3⟩ ariaInit).walkEnd.y = 0 :=
  (walk_target_ground_projected P0 ⟨1, 5, 3⟩ ariaInit).1

/-- Appending a fresh element makes its count one. -/
lemma count_append_fresh (l : List ℕ) (r : ℕ) (h : r ∉ l) : (l ++ [r]).count r = 1 := by
  rw [List.count_append]
  simp [List.count_eq_zero_of_not_mem h]

/-- C8. Every walkToPosition call arms its safety timeout at
max(8000 ms, duration times 1500 ms), bound to the new request id. When
the timeout fires for the current request and the machine is in neither
idle nor speaking, it snaps the position to the ground projected walk
end and settles the completion promise exactly once; when the machine is
already idle or speaking the handler only lets the timer lapse and
changes nothing else. -/
theorem walk_timeout_arms_and_fires (P : Prims) (t : V3 ℚ) (s : AriaSt) :
    ((walkToPosition P t s).timeoutMs
        = max 8000 ((walkToPosition P t s).walkDuration * 1500) ∧
      (walkToPosition P t s).pendingWalkTimeout = some (walkToPosition P t s).walkRequestId) ∧
    (∀ (s1 : AriaSt) (r : ℕ),
      s1.pendingWalkTimeout = some r → r = s1.walkRequestId →
      s1.st ≠ .idle → s1.st ≠ .speaking → r ∉ s1.settled →
      (walkTimeoutFire s1).pos = ⟨s1.walkEnd.x, 0, s1.walkEnd.z⟩ ∧
      (walkTimeoutFire s1).settled.count r = 1 ∧
      (walkTimeoutFire s1).onWalkComplete = none) ∧
    (∀ (s1 : AriaSt) (r : ℕ),
      s1.pendingWalkTimeout = some r → (s1.st = .idle ∨ s1.st = .speaking) →
      walkTimeoutFire s1 = { s1 with pendingWalkTimeout := none }) := by
  refine ⟨⟨(walkToPosition_fields P t s).2.2.2.2.2.2.2,
      by rw [(walkToPosition_fields P t s).2.2.2.2.2.2.1, (walkToPosition_fields P t s).2.2.2.1]⟩,
    ?_, ?_⟩
  · intro s1 r h1 h2 h3 h4 h5
    unfold walkTimeoutFire
    rw [h1]
    dsimp only
    rw [if_neg (by simp [h2]), if_pos ⟨h3, h4⟩]
    cases h6 : s1.onWalkComplete with
    | none =>
      dsimp only
      unfold promiseResolve
      refine ⟨rfl, ?_, rfl⟩
      dsimp only
      rw [if_neg h5]
      exact count_append_fresh _ _ h5
    | some rc =>
      dsimp only
      unfold fireWalkResolver promiseResolve
      by_cases hrc : rc ≠ s1.walkRequestId
      · rw [if_pos hrc]
        dsimp only
        rw [if_neg h5]
        exact ⟨rfl, count_append_fresh _ _ h5, rfl⟩
      · rw [if_neg hrc]
        dsimp only
        rw [not_not] at hrc
        rw [hrc, ← h2]
        rw [if_neg h5]
        rw [if_pos (by simp : r ∈ s1.settled ++ [r])]
        exact ⟨rfl, count_append_fresh _ _ h5, rfl⟩
  · intro s1 r h1 h2
    unfold walkTimeoutFire
    rw [h1]
    dsimp only
    by_cases hr : r ≠ s1.walkRequestId
    · rw [if_pos hr]
    · rw [if_neg hr, if_neg (by
        rcases h2 with h | h
        · intro hc
          exact hc.1 h
        · intro hc
          exact hc.2 h)]

/-- Witness for C8: a concrete stuck walking state whose timeout fires. -/
theorem walk_timeout_arms_and_fires_witness :
    ((walkToPosition P0 ⟨0, 0, -5⟩ ariaInit).timeoutMs
        = max 8000 ((walkToPosition P0 ⟨0, 0, -5⟩ ariaInit).walkDuration * 1500)) ∧
    (walkTimeoutFire
        { walkToPosition P0 ⟨0, 0, -5⟩ ariaInit with st := .walking }).settled.count 1 = 1 := by
  refine ⟨(walk_timeout_arms_and_fires P0 ⟨0, 0, -5⟩ ariaInit).1.1, ?_⟩
  have h := ((walk_timeout_arms_and_fires P0 ⟨0, 0, -5⟩ ariaInit).2.1
    { walkToPosition P0 ⟨0, 0, -5⟩ ariaInit with st := .walking } 1
    (walkToPosition_fields P0 ⟨0, 0, -5⟩ ariaInit).2.2.2.2.2.2.1
    (by rw [(walkToPosition_fields P0 ⟨0, 0, -5⟩ ariaInit).2.2.2.1]; rfl)
    (by simp) (by simp)
    (by
      have hs : (walkToPosition P0 ⟨0, 0, -5⟩ ariaInit).settled = [] := by
        unfold walkToPosition fireWalkResolver promiseResolve
        rfl
      show (1 : ℕ) ∉ (walkToPosition P0 ⟨0, 0, -5⟩ ariaInit).settled
      rw [hs]
      simp))
  exact h.2.1

/-- Appending one element equal to the counted one. -/
lemma count_append_self (l : List ℕ) (sig : ℕ) :
    (l ++ [sig]).count sig = l.count sig + 1 := by
  rw [List.count_append]
  simp


/-- The finish closure of a different signal neither creates a reference
to sig nor resolves it. -/
lemma finishFn_noref (sig sig2 : ℕ) (s : CamS) (h : camNoRef sig s) (hne : sig2 ≠ sig) :
    camNoRef sig (finishFn sig2 s) ∧
    (finishFn sig2 s).resolveLog.count sig = s.resolveLog.count sig := by
  unfold finishFn
  split
  · exact ⟨h, rfl⟩
  · refine ⟨⟨h.1, by simp, by simp, h.2.2.2.1, h.2.2.2.2⟩, ?_⟩
    rw [List.count_append]
    simp [List.count_cons, Ne.symm hne]

/-- cancelTransition preserves the absence of references to sig and its
resolution count. -/
lemma cancelTransition_noref (sig : ℕ) (s : CamS) (h : camNoRef sig s) :
    camNoRef sig (cancelTransition s) ∧
    (cancelTransition s).resolveLog.count sig = s.resolveLog.count sig := by
  unfold cancelTransition
  cases h2 : s.transitionTween with
  | none =>
    cases h3 : s.transitionResolve with
    | none => exact ⟨⟨h.1, by simp [h3], by simp [h2], h.2.2.2.1, h.2.2.2.2⟩, rfl⟩
    | some sig2 =>
      dsimp only
      have hne : sig2 ≠ sig := fun he => h.2.1 (he ▸ h3)
      exact finishFn_noref sig sig2 _ ⟨h.1, by simp, by simp, h.2.2.2.1, h.2.2.2.2⟩ hne
  | some tw =>
    cases h3 : s.transitionResolve with
    | none => exact ⟨⟨h.1, by simp [h3], by simp, h.2.2.2.1, h.2.2.2.2⟩, rfl⟩
    | some sig2 =>
      dsimp only
      have hne : sig2 ≠ sig := fun he => h.2.1 (he ▸ h3)
      exact finishFn_noref sig sig2 _ ⟨h.1, by simp, by simp, h.2.2.2.1, h.2.2.2.2⟩ hne

/-- stopTour preserves the absence of references and the count. -/
lemma stopTour_noref (sig : ℕ) (s : CamS) (h : camNoRef sig s) :
    camNoRef sig (stopTour s) ∧
    (stopTour s).resolveLog.count sig = s.resolveLog.count sig := by
  unfold stopTour
  split
  · exact ⟨h, rfl⟩
  · cases h2 : s.onTourComplete with
    | none => exact ⟨⟨by simp [h2], h.2.1, h.2.2.1, h.2.2.2.1, h.2.2.2.2⟩, rfl⟩
    | some sig2 =>
      dsimp only
      have hne : sig2 ≠ sig := fun he => h.1 (he ▸ h2)
      refine ⟨⟨by simp, h.2.1, h.2.2.1, h.2.2.2.1, h.2.2.2.2⟩, ?_⟩
      rw [List.count_append]
      simp [List.count_cons, Ne.symm hne]

/-- tourFinish preserves the absence of references and the count. -/
lemma tourFinish_noref (sig : ℕ) (s : CamS) (h : camNoRef sig s) :
    camNoRef sig (tourFinish s) ∧
    (tourFinish s).resolveLog.count sig = s.resolveLog.count sig := by
  unfold tourFinish
  split
  · cases h2 : s.onTourComplete with
    | none => exact ⟨⟨by simp [h2], h.2.1, h.2.2.1, h.2.2.2.1, h.2.2.2.2⟩, rfl⟩
    | some sig2 =>
      dsimp only
      have hne : sig2 ≠ sig := fun he => h.1 (he ▸ h2)
      refine ⟨⟨by simp, h.2.1, h.2.2.1, h.2.2.2.1, h.2.2.2.2⟩, ?_⟩
      rw [List.count_append]
      simp [List.count_cons, Ne.symm hne]
  · exact ⟨h, rfl⟩

/-- startTour with a callback that is not sig preserves both. -/
lemma startTour_noref (sig : ℕ) (loop : Bool) (onC : Option ℕ) (s : CamS)
    (h : camNoRef sig s) (honc : onC ≠ some sig) :
    camNoRef sig (startTour loop onC s) ∧
    (startTour loop onC s).resolveLog.count sig = s.resolveLog.count sig := by
  unfold startTour
  have h1 : camNoRef sig (if s.isOrbiting then disableOrbitMode s else s) := by
    unfold disableOrbitMode
    split <;> exact h
  have h2 : (if s.isOrbiting then disableOrbitMode s else s).resolveLog = s.resolveLog := by
    unfold disableOrbitMode
    split <;> rfl
  obtain ⟨h3, h4⟩ := cancelTransition_noref sig _ h1
  refine ⟨⟨?_, h3.2.1, h3.2.2.1, h3.2.2.2.1, h3.2.2.2.2⟩, ?_⟩
  · dsimp only
    split
    · simp
    · simpa using honc
  · dsimp only
    rw [h4, h2]

/-- playTour allocates a fresh signal and preserves both for sig. -/
lemma playTour_noref (sig : ℕ) (s : CamS) (h : camNoRef sig s) :
    camNoRef sig (playTour s).1 ∧
    (playTour s).1.resolveLog.count sig = s.resolveLog.count sig := by
  unfold playTour
  dsimp only
  have hfresh : (some s.nextSig : Option ℕ) ≠ some sig := by
    simp
    exact fun he => absurd (he ▸ h.2.2.2.2) (lt_irrefl sig)
  have h0 : camNoRef sig { s with nextSig := s.nextSig + 1 } :=
    ⟨h.1, h.2.1, h.2.2.1, h.2.2.2.1, Nat.lt_succ_of_lt h.2.2.2.2⟩
  exact startTour_noref sig false (some s.nextSig) _ h0 hfresh

/-- transitionTo allocates a fresh signal and preserves both for sig. -/
lemma transitionTo_noref (sig : ℕ) (kind : TKind) (s : CamS) (h : camNoRef sig s) :
    camNoRef sig (transitionTo kind s).1 ∧
    (transitionTo kind s).1.resolveLog.count sig = s.resolveLog.count sig := by
  unfold transitionTo
  have h1 : camNoRef sig (if s.isOrbiting then disableOrbitMode s else s) := by
    unfold disableOrbitMode
    split <;> exact h
  have h2 : (if s.isOrbiting then disableOrbitMode s else s).resolveLog = s.resolveLog := by
    unfold disableOrbitMode
    split <;> rfl
  have h3 : camNoRef sig
      { (if s.isOrbiting then disableOrbitMode s else s) with
          isTouring := false, onTourComplete := none } :=
    ⟨by simp, h1.2.1, h1.2.2.1, h1.2.2.2.1, h1.2.2.2.2⟩
  obtain ⟨h4, h5⟩ := cancelTransition_noref sig _ h3
  have hlt : sig < (cancelTransition
      { (if s.isOrbiting then disableOrbitMode s else s) with
          isTouring := false, onTourComplete := none }).nextSig := h4.2.2.2.2
  dsimp only
  constructor
  · split
    · exact ⟨h4.1, by simpa using (Nat.ne_of_lt hlt).symm, by simpa using (Nat.ne_of_lt hlt).symm,
        by
          simp only [List.mem_append, List.mem_singleton]
          rintro (hmem | heq)
          · exact h4.2.2.2.1 hmem
          · exact absurd (heq ▸ hlt) (lt_irrefl sig),
        Nat.lt_succ_of_lt hlt⟩
    · exact ⟨h4.1, by simpa using (Nat.ne_of_lt hlt).symm, by simpa using (Nat.ne_of_lt hlt).symm,
        h4.2.2.2.1, Nat.lt_succ_of_lt hlt⟩
  · split <;> (dsimp only; rw [h5, h2])

/-- tweenComplete preserves the absence of references and the count. -/
lemma tweenComplete_noref (sig : ℕ) (s : CamS) (h : camNoRef sig s) :
    camNoRef sig (tweenComplete s) ∧
    (tweenComplete s).resolveLog.count sig = s.resolveLog.count sig := by
  unfold tweenComplete
  cases h2 : s.transitionTween with
  | none => exact ⟨h, rfl⟩
  | some sig2 =>
    dsimp only
    exact finishFn_noref sig sig2 s h (fun he => h.2.2.1 (he ▸ h2))

/-- returnTimerFire preserves the absence of references and the count. -/
lemma returnTimerFire_noref (sig sig2 : ℕ) (s : CamS) (h : camNoRef sig s) :
    camNoRef sig (returnTimerFire sig2 s) ∧
    (returnTimerFire sig2 s).resolveLog.count sig = s.resolveLog.count sig := by
  unfold returnTimerFire
  split
  · have hne : sig2 ≠ sig := by
      intro he
      subst he
      exact h.2.2.2.1 (by assumption)
    refine finishFn_noref sig sig2 _ ⟨h.1, h.2.1, h.2.2.1, ?_, h.2.2.2.2⟩ hne
    intro hmem
    exact h.2.2.2.1 (List.mem_of_mem_erase hmem)
  · exact ⟨h, rfl⟩

/-- One controller event preserves the absence of references to sig and
its resolution count. -/
lemma camStep_noref (sig : ℕ) (e : CamEv) (s : CamS) (h : camNoRef sig s) :
    camNoRef sig (camStep e s) ∧
    (camStep e s).resolveLog.count sig = s.resolveLog.count sig := by
  cases e with
  | tweenCompleteEv => exact tweenComplete_noref sig s h
  | returnTimerFireEv sig2 => exact returnTimerFire_noref sig sig2 s h
  | tourFinishEv => exact tourFinish_noref sig s h
  | cancelTransitionEv => exact cancelTransition_noref sig s h
  | stopTourEv => exact stopTour_noref sig s h
  | stopShowroomTourEv =>
    exact ⟨⟨by simp [camStep, stopShowroomTour], h.2.1, h.2.2.1, h.2.2.2.1, h.2.2.2.2⟩, rfl⟩
  | startTourEv loop => exact startTour_noref sig loop none s h (by simp)
  | playTourEv => exact playTour_noref sig s h
  | transitionToEv kind => exact transitionTo_noref sig kind s h
  | enableOrbitEv => exact ⟨h, rfl⟩
  | disableOrbitEv => exact ⟨h, rfl⟩
  | followEv b =>
    show camNoRef sig (followARIA b s) ∧
      (followARIA b s).resolveLog.count sig = s.resolveLog.count sig
    unfold followARIA
    split
    · exact ⟨h, rfl⟩
    · exact ⟨h, rfl⟩

/-- A signal with no remaining reference is never resolved by any later
event sequence. -/
lemma camRun_noref (sig : ℕ) (evs : List CamEv) (s : CamS) (h : camNoRef sig s) :
    camNoRef sig (camRun evs s) ∧
    (camRun evs s).resolveLog.count sig = s.resolveLog.count sig := by
  induction evs generalizing s with
  | nil => exact ⟨h, rfl⟩
  | cons e t ih =>
    obtain ⟨h1, h2⟩ := camStep_noref sig e s h
    obtain ⟨h3, h4⟩ := ih (camStep e s) h1
    exact ⟨h3, by rw [camRun] at h4 ⊢; rw [List.foldl_cons, h4, h2]⟩

/-- C4 (divergence witness). Calling transitionTo twice in immediate
succession: the second call cancels the first via cancelTransition,
which nulls transitionResolve before invoking the stored finish closure;
the closure then early returns on its null check, so the first promise
is resolved zero times, and no later controller event can ever resolve
it. Only the second transition is in flight afterwards. -/
theorem transitionTo_cancel_never_resolves_first :
    ((Camera.transitionTo .custom
        (Camera.transitionTo .custom Camera.camInit).1).1.resolveLog.count
      (Camera.transitionTo .custom Camera.camInit).2 = 0) ∧
    ((Camera.transitionTo .custom
        (Camera.transitionTo .custom Camera.camInit).1).1.transitionResolve
      = some (Camera.transitionTo .custom
          (Camera.transitionTo .custom Camera.camInit).1).2) ∧
    ((Camera.transitionTo .custom
        (Camera.transitionTo .custom Camera.camInit).1).1.isTransitioning = true) ∧
    ((Camera.transitionTo .custom Camera.camInit).2
      ≠ (Camera.transitionTo .custom (Camera.transitionTo .custom Camera.camInit).1).2) ∧
    (∀ evs : List CamEv,
      (camRun evs (Camera.transitionTo .custom
          (Camera.transitionTo .custom Camera.camInit).1).1).resolveLog.count
        (Camera.transitionTo .custom Camera.camInit).2 = 0) := by
  refine ⟨by decide, by decide, by decide, by decide, ?_⟩
  intro evs
  have h := camRun_noref (Camera.transitionTo .custom Camera.camInit).2 evs
    (Camera.transitionTo .custom (Camera.transitionTo .custom Camera.camInit).1).1
    (by unfold camNoRef; decide)
  rw [h.2]
  decide

/-- C3 counterexample. A non looping tour started through playTour and
then superseded by a transitionTo mode switch: the switch nulls the
pending tour completion without invoking it, so the tour promise has
been resolved zero times and the state keeps no reference to it. -/
theorem playTour_superseded_unresolved_cex :
    ((Camera.transitionTo .custom (Camera.playTour Camera.camInit).1).1.resolveLog.count
        (Camera.playTour Camera.camInit).2 = 0) ∧
    ((Camera.transitionTo .custom
        (Camera.playTour Camera.camInit).1).1.onTourComplete = none) := by
  decide

/-- C3 (amended). Tour and transition completions resolve exactly once
on the paths that do resolve them: stopTour on an active non looping
tour invokes the pending completion once (a second stopTour adds
nothing), natural completion of a non looping tour invokes it once; but
a transitionTo issued over an active playTour discards the pending tour
completion without invoking it and no later controller event can ever
resolve it, and stopShowroomTour likewise nulls it silently. -/
theorem tour_completion_resolution :
    (∀ (s : CamS) (sig : ℕ), s.isTouring = true → s.onTourComplete = some sig →
      (stopTour s).resolveLog.count sig = s.resolveLog.count sig + 1 ∧
      (stopTour (stopTour s)).resolveLog.count sig = s.resolveLog.count sig + 1 ∧
      (stopTour s).onTourComplete = none) ∧
    (∀ (s : CamS) (sig : ℕ), s.isTouring = true → s.tourLoop = false →
      s.onTourComplete = some sig →
      (tourFinish s).resolveLog.count sig = s.resolveLog.count sig + 1 ∧
      (tourFinish s).onTourComplete = none) ∧
    (∀ evs : List CamEv,
      (camRun evs (Camera.transitionTo .custom
          (Camera.playTour Camera.camInit).1).1).resolveLog.count
        (Camera.playTour Camera.camInit).2 = 0) ∧
    ((Camera.stopShowroomTour (Camera.playTour Camera.camInit).1).resolveLog.count
        (Camera.playTour Camera.camInit).2 = 0 ∧
      (Camera.stopShowroomTour
        (Camera.playTour Camera.camInit).1).onTourComplete = none) := by
  refine ⟨?_, ?_, ?_, by decide⟩
  · intro s sig h1 h2
    have hstop : stopTour s =
        { s with isTouring := false, onTourComplete := none,
                 resolveLog := s.resolveLog ++ [sig] } := by
      unfold stopTour
      rw [if_neg (by simp [h1])]
      dsimp only
      rw [h2]
    refine ⟨by rw [hstop]; exact count_append_self _ _, ?_, by rw [hstop]⟩
    have hstop2 : stopTour (stopTour s) = stopTour s := by
      rw [hstop]
      unfold stopTour
      rw [if_pos (by simp)]
    rw [hstop2, hstop]
    exact count_append_self _ _
  · intro s sig h1 hl h2
    have hfin : tourFinish s =
        { s with isTouring := false, onTourComplete := none,
                 resolveLog := s.resolveLog ++ [sig] } := by
      unfold tourFinish
      rw [if_pos ⟨by simp [h1], by simp [hl]⟩]
      dsimp only
      rw [h2]
    exact ⟨by rw [hfin]; exact count_append_self _ _, by rw [hfin]⟩
  · intro evs
    have h := camRun_noref (Camera.playTour Camera.camInit).2 evs
      (Camera.transitionTo .custom (Camera.playTour Camera.camInit).1).1
      (by unfold camNoRef; decide)
    rw [h.2]
    decide

/-- Witness for C3 at a concrete touring state. -/
theorem tour_completion_resolution_witness :
    (Camera.stopTour (Camera.playTour Camera.camInit).1).resolveLog.count
        (Camera.playTour Camera.camInit).2
      = (Camera.playTour Camera.camInit).1.resolveLog.count
          (Camera.playTour Camera.camInit).2 + 1 :=
  (tour_completion_resolution.1 (Camera.playTour Camera.camInit).1
    (Camera.playTour Camera.camInit).2 (by decide) (by decide)).1


/-- Dispatch reduction in the idle state. -/
lemma ariaDispatch_idle (P : Prims) (el d : ℚ) (cam : V3 ℚ) (s : AriaSt)
    (h : s.st = .idle) : ariaDispatch P el d cam s = updateIdle P el d cam s := by
  unfold ariaDispatch
  rw [h]

/-- Dispatch reduction in the turning to target state. -/
lemma ariaDispatch_turnTarget (P : Prims) (el d : ℚ) (cam : V3 ℚ) (s : AriaSt)
    (h : s.st = .turningToTarget) :
    ariaDispatch P el d cam s = updateTurningToTarget P d s := by
  unfold ariaDispatch
  rw [h]

/-- Dispatch reduction in the walking state. -/
lemma ariaDispatch_walking (P : Prims) (el d : ℚ) (cam : V3 ℚ) (s : AriaSt)
    (h : s.st = .walking) : ariaDispatch P el d cam s = updateWalking P d s := by
  unfold ariaDispatch
  rw [h]

/-- Dispatch reduction in the turning to camera state. -/
lemma ariaDispatch_turnCamera (P : Prims) (el d : ℚ) (cam : V3 ℚ) (s : AriaSt)
    (h : s.st = .turningToCamera) :
    ariaDispatch P el d cam s = updateTurningToCamera P d cam s := by
  unfold ariaDispatch
  rw [h]

/-- Dispatch reduction in the speaking state. -/
lemma ariaDispatch_speaking (P : Prims) (el d : ℚ) (cam : V3 ℚ) (s : AriaSt)
    (h : s.st = .speaking) : ariaDispatch P el d cam s = updateSpeaking P el d cam s := by
  unfold ariaDispatch
  rw [h]


/-- The turning to target update leaves the resolver fields alone. -/
lemma updateTurningToTarget_rview (P : Prims) (d : ℚ) (s : AriaSt) :
    rview (updateTurningToTarget P d s) = rview s := by
  unfold updateTurningToTarget
  dsimp only
  split <;> rfl

/-- The walking update leaves the resolver fields alone. -/
lemma updateWalking_rview (P : Prims) (d : ℚ) (s : AriaSt) :
    rview (updateWalking P d s) = rview s := by
  unfold updateWalking
  dsimp only
  split <;> rfl

/-- Appending a different element preserves the count. -/
lemma count_append_other (l : List ℕ) (q r : ℕ) (h : q ≠ r) :
    (l ++ [q]).count r = l.count r := by
  rw [List.count_append]
  simp [List.count_cons, Ne.symm h]

/-- The resolver closure of request one, spelled out. -/
lemma fireWalkResolver_one (s : AriaSt) (h1 : s.walkRequestId = 1) :
    fireWalkResolver 1 s = promiseResolve 1
      { s with pendingWalkTimeout := none, onWalkComplete := none,
               pendingWalkResolve := none } := by
  unfold fireWalkResolver
  rw [if_neg (by simp [h1])]


/-- PreInv transfers along equal resolver views. -/
lemma preInv_of_rview (s s2 : AriaSt) (h : rview s2 = rview s) (hp : PreInv s) :
    PreInv s2 := by
  have e1 : s2.pendingWalkResolve = s.pendingWalkResolve := congrArg Prod.fst h
  have e2 : s2.onWalkComplete = s.onWalkComplete := congrArg (fun v => v.2.1) h
  have e3 : s2.pendingWalkTimeout = s.pendingWalkTimeout := congrArg (fun v => v.2.2.1) h
  have e4 : s2.walkRequestId = s.walkRequestId := congrArg (fun v => v.2.2.2.1) h
  have e5 : s2.resolveLog = s.resolveLog := congrArg (fun v => v.2.2.2.2) h
  unfold PreInv at hp ⊢
  rw [e1, e2, e3, e4, e5]
  exact hp

/-- PreInv survives firing the resolver of request one. -/
lemma preInv_after_fire (s : AriaSt) (h1 : s.walkRequestId = 1) :
    PreInv (promiseResolve 1
      { s with pendingWalkTimeout := none, onWalkComplete := none,
               pendingWalkResolve := none }) := by
  unfold promiseResolve PreInv
  refine ⟨h1, Or.inl rfl, Or.inl rfl, Or.inl rfl, ?_⟩
  intro hc
  rw [count_append_self] at hc
  omega

/-- PreInv survives a repeated resolve call on the request one promise. -/
lemma preInv_promiseResolve_one (s : AriaSt) (h : PreInv s) : PreInv (promiseResolve 1 s) := by
  unfold promiseResolve PreInv
  refine ⟨h.1, h.2.1, h.2.2.1, h.2.2.2.1, ?_⟩
  intro hc
  rw [count_append_self] at hc
  omega

/-- PreInv survives invoking the request one closure on a state whose
request counter is one. -/
lemma preInv_fire_one (s : AriaSt) (h1 : s.walkRequestId = 1) :
    PreInv (fireWalkResolver 1 s) := by
  rw [fireWalkResolver_one s h1]
  exact preInv_after_fire s h1

/-- PreInv survives the turning to camera update, resolution included. -/
lemma preInv_turnCamera (P : Prims) (d : ℚ) (cam : V3 ℚ) (s : AriaSt) (h : PreInv s) :
    PreInv (updateTurningToCamera P d cam s) := by
  unfold updateTurningToCamera
  dsimp only
  split
  · rcases h.2.1 with hn | hs1
    · rw [hn]
      unfold PreInv
      exact ⟨h.1, Or.inl rfl, h.2.2.1, h.2.2.2.1, h.2.2.2.2⟩
    · rw [hs1]
      dsimp only
      exact preInv_fire_one _ h.1
  · exact preInv_of_rview s _ rfl h

/-- PreInv survives the per state dispatch. -/
lemma preInv_dispatch (P : Prims) (el d : ℚ) (cam : V3 ℚ) (s : AriaSt)
    (h : PreInv s) : PreInv (ariaDispatch P el d cam s) := by
  cases hst : s.st with
  | idle => rw [ariaDispatch_idle _ _ _ _ _ hst]; exact preInv_of_rview _ _ rfl h
  | turningToTarget =>
    rw [ariaDispatch_turnTarget _ _ _ _ _ hst]
    exact preInv_of_rview _ _ (updateTurningToTarget_rview P _ _) h
  | walking =>
    rw [ariaDispatch_walking _ _ _ _ _ hst]
    exact preInv_of_rview _ _ (updateWalking_rview P _ _) h
  | turningToCamera =>
    rw [ariaDispatch_turnCamera _ _ _ _ _ hst]
    exact preInv_turnCamera P _ cam _ h
  | speaking => rw [ariaDispatch_speaking _ _ _ _ _ hst]; exact preInv_of_rview _ _ rfl h

/-- PreInv survives one frame update. -/
lemma preInv_frame (P : Prims) (el : ℚ) (cam : V3 ℚ) (sp : Bool) (s : AriaSt)
    (h : PreInv s) : PreInv (updateARIA P el cam sp s) := by
  unfold updateARIA
  dsimp only
  exact preInv_of_rview _ _ rfl
    (preInv_dispatch P el _ cam _ (preInv_of_rview s _ rfl h))

/-- PreInv survives the safety timeout firing. -/
lemma preInv_timeout (s : AriaSt) (h : PreInv s) : PreInv (walkTimeoutFire s) := by
  unfold walkTimeoutFire
  rcases h.2.2.1 with hn | h1t
  · rw [hn]
    exact h
  · rw [h1t]
    dsimp only
    rw [if_neg (by simp [h.1])]
    split
    · rcases h.2.1 with hn2 | hs2
      · rw [hn2]
        unfold promiseResolve PreInv
        refine ⟨h.1, Or.inl rfl, Or.inl rfl, h.2.2.2.1, ?_⟩
        intro hc
        rw [count_append_self] at hc
        omega
      · rw [hs2]
        dsimp only
        exact preInv_promiseResolve_one _ (preInv_fire_one _ h.1)
    · exact ⟨h.1, h.2.1, Or.inl rfl, h.2.2.2.1, h.2.2.2.2⟩

/-- PreInv survives any event that is not a walkToPosition call. -/
lemma preInv_step (P : Prims) (e : AriaEv) (s : AriaSt) (he : isWalkEv e = false)
    (h : PreInv s) : PreInv (ariaStep P e s) := by
  cases e with
  | walk t => simp [isWalkEv] at he
  | frame el cam sp => exact preInv_frame P el cam sp s h
  | timeoutFire => exact preInv_timeout s h
  | reset => exact preInv_of_rview s _ rfl h

/-- PreInv survives any walk free event sequence. -/
lemma preInv_run (P : Prims) (evs : List AriaEv) (s : AriaSt)
    (hnw : ∀ e ∈ evs, isWalkEv e = false) (h : PreInv s) : PreInv (ariaRun P evs s) := by
  induction evs generalizing s with
  | nil => exact h
  | cons e t ih =>
    have h1 := preInv_step P e s (hnw e (List.mem_cons_self e t)) h
    exact ih (ariaStep P e s) (fun x hx => hnw x (List.mem_cons_of_mem _ hx)) h1


/-- NoRefA and the count transfer along equal resolver views. -/
lemma noRefA_of_rview (r : ℕ) (s s2 : AriaSt) (h : rview s2 = rview s) (hp : NoRefA r s) :
    NoRefA r s2 ∧ s2.resolveLog.count r = s.resolveLog.count r := by
  have e1 : s2.pendingWalkResolve = s.pendingWalkResolve := congrArg Prod.fst h
  have e2 : s2.onWalkComplete = s.onWalkComplete := congrArg (fun v => v.2.1) h
  have e3 : s2.pendingWalkTimeout = s.pendingWalkTimeout := congrArg (fun v => v.2.2.1) h
  have e4 : s2.walkRequestId = s.walkRequestId := congrArg (fun v => v.2.2.2.1) h
  have e5 : s2.resolveLog = s.resolveLog := congrArg (fun v => v.2.2.2.2) h
  unfold NoRefA at hp ⊢
  rw [e1, e2, e3, e4, e5]
  exact ⟨hp, rfl⟩

/-- Firing the closure of a different request preserves NoRefA and the
count of r. -/
lemma fireWalkResolver_noref (q r : ℕ) (s : AriaSt) (hne : q ≠ r) (h : NoRefA r s) :
    NoRefA r (fireWalkResolver q s) ∧
    (fireWalkResolver q s).resolveLog.count r = s.resolveLog.count r := by
  unfold fireWalkResolver
  split
  · exact ⟨h, rfl⟩
  · unfold promiseResolve
    exact ⟨⟨by simp, by simp, by simp, h.2.2.2⟩, count_append_other _ _ _ hne⟩

/-- A walkToPosition call preserves NoRefA and the count of r. -/
lemma walkToPosition_noref (P : Prims) (t : V3 ℚ) (r : ℕ) (s : AriaSt) (h : NoRefA r s) :
    NoRefA r (walkToPosition P t s) ∧
    (walkToPosition P t s).resolveLog.count r = s.resolveLog.count r := by
  obtain ⟨hh1, hh2, hh3, hh4⟩ := h
  unfold walkToPosition
  cases hp : s.pendingWalkResolve with
  | none =>
    dsimp only
    refine ⟨⟨?_, ?_, ?_, ?_⟩, rfl⟩
    · show (some (s.walkRequestId + 1) : Option ℕ) ≠ some r
      simp
      omega
    · show (some (s.walkRequestId + 1) : Option ℕ) ≠ some r
      simp
      omega
    · show (some (s.walkRequestId + 1) : Option ℕ) ≠ some r
      simp
      omega
    · show r < s.walkRequestId + 1
      omega
  | some q =>
    have hq : q ≠ r := fun he => hh1 (by rw [hp, he])
    dsimp only
    obtain ⟨hf, hc⟩ := fireWalkResolver_noref q r s hq ⟨hh1, hh2, hh3, hh4⟩
    have hwid : (fireWalkResolver q s).walkRequestId = s.walkRequestId := by
      unfold fireWalkResolver promiseResolve
      split <;> rfl
    refine ⟨⟨?_, ?_, ?_, ?_⟩, hc⟩
    · show (some ((fireWalkResolver q s).walkRequestId + 1) : Option ℕ) ≠ some r
      rw [hwid]
      simp
      omega
    · show (some ((fireWalkResolver q s).walkRequestId + 1) : Option ℕ) ≠ some r
      rw [hwid]
      simp
      omega
    · show (some ((fireWalkResolver q s).walkRequestId + 1) : Option ℕ) ≠ some r
      rw [hwid]
      simp
      omega
    · show r < (fireWalkResolver q s).walkRequestId + 1
      rw [hwid]
      omega

/-- The turning to camera update preserves NoRefA and the count of r. -/
lemma noRefA_turnCamera (P : Prims) (d : ℚ) (cam : V3 ℚ) (r : ℕ) (s : AriaSt)
    (h : NoRefA r s) :
    NoRefA r (updateTurningToCamera P d cam s) ∧
    (updateTurningToCamera P d cam s).resolveLog.count r = s.resolveLog.count r := by
  unfold updateTurningToCamera
  dsimp only
  split
  · cases hoc : s.onWalkComplete with
    | none => exact ⟨⟨h.1, by simp, h.2.2.1, h.2.2.2⟩, rfl⟩
    | some rc =>
      have hrc : rc ≠ r := fun he => h.2.1 (by rw [hoc, he])
      dsimp only
      exact fireWalkResolver_noref rc r _ hrc ⟨h.1, by simp, h.2.2.1, h.2.2.2⟩
  · exact noRefA_of_rview r s _ rfl h

/-- The safety timeout handler preserves NoRefA and the count of r. -/
lemma noRefA_timeout (r : ℕ) (s : AriaSt) (h : NoRefA r s) :
    NoRefA r (walkTimeoutFire s) ∧
    (walkTimeoutFire s).resolveLog.count r = s.resolveLog.count r := by
  unfold walkTimeoutFire
  cases ht : s.pendingWalkTimeout with
  | none => exact ⟨h, rfl⟩
  | some q =>
    have hq : q ≠ r := fun he => h.2.2.1 (by rw [ht, he])
    dsimp only
    by_cases hqw : q ≠ s.walkRequestId
    · rw [if_pos hqw]
      exact ⟨⟨h.1, h.2.1, by simp, h.2.2.2⟩, rfl⟩
    · rw [if_neg hqw]
      split
      · cases hoc : s.onWalkComplete with
        | none =>
          dsimp only
          unfold promiseResolve
          exact ⟨⟨h.1, by simp, by simp, h.2.2.2⟩, count_append_other _ _ _ hq⟩
        | some rc =>
          have hrc : rc ≠ r := fun he => h.2.1 (by rw [hoc, he])
          dsimp only
          obtain ⟨hf, hc⟩ := fireWalkResolver_noref rc r
            { s with pendingWalkTimeout := none,
                     pos := ⟨s.walkEnd.x, 0, s.walkEnd.z⟩, onWalkComplete := none }
            hrc ⟨h.1, by simp, by simp, h.2.2.2⟩
          unfold promiseResolve
          refine ⟨⟨hf.1, hf.2.1, hf.2.2.1, hf.2.2.2⟩, ?_⟩
          rw [count_append_other _ _ _ hq]
          exact hc
      · exact ⟨⟨h.1, h.2.1, by simp, h.2.2.2⟩, rfl⟩

/-- NoRefA survives the per state dispatch with the count unchanged. -/
lemma noRefA_dispatch (P : Prims) (el d : ℚ) (cam : V3 ℚ) (r : ℕ) (s : AriaSt)
    (h : NoRefA r s) :
    NoRefA r (ariaDispatch P el d cam s) ∧
    (ariaDispatch P el d cam s).resolveLog.count r = s.resolveLog.count r := by
  cases hst : s.st with
  | idle => rw [ariaDispatch_idle _ _ _ _ _ hst]; exact noRefA_of_rview r s _ rfl h
  | turningToTarget =>
    rw [ariaDispatch_turnTarget _ _ _ _ _ hst]
    exact noRefA_of_rview r s _ (updateTurningToTarget_rview P _ _) h
  | walking =>
    rw [ariaDispatch_walking _ _ _ _ _ hst]
    exact noRefA_of_rview r s _ (updateWalking_rview P _ _) h
  | turningToCamera =>
    rw [ariaDispatch_turnCamera _ _ _ _ _ hst]
    exact noRefA_turnCamera P _ cam r s h
  | speaking => rw [ariaDispatch_speaking _ _ _ _ _ hst]; exact noRefA_of_rview r s _ rfl h

/-- NoRefA survives any event with the count of r unchanged: once no
reference to request r remains, no event can ever resolve it again. -/
lemma noRefA_step (P : Prims) (r : ℕ) (e : AriaEv) (s : AriaSt) (h : NoRefA r s) :
    NoRefA r (ariaStep P e s) ∧
    (ariaStep P e s).resolveLog.count r = s.resolveLog.count r := by
  cases e with
  | walk t => exact walkToPosition_noref P t r s h
  | frame el cam sp =>
    have hua : ariaStep P (.frame el cam sp) s
        = updateLightState P el (ariaDispatch P el (effectiveDelta el s.lastUpdateTime) cam
            { s with lastUpdateTime := el, speakingFlag := sp }) := rfl
    rw [hua]
    obtain ⟨h1, h2⟩ := noRefA_of_rview r s { s with lastUpdateTime := el, speakingFlag := sp }
      rfl h
    obtain ⟨h3, h4⟩ := noRefA_dispatch P el (effectiveDelta el s.lastUpdateTime) cam r _ h1
    obtain ⟨h5, h6⟩ := noRefA_of_rview r
      (ariaDispatch P el (effectiveDelta el s.lastUpdateTime) cam
        { s with lastUpdateTime := el, speakingFlag := sp })
      (updateLightState P el (ariaDispatch P el (effectiveDelta el s.lastUpdateTime) cam
        { s with lastUpdateTime := el, speakingFlag := sp })) rfl h3
    exact ⟨h5, by rw [h6, h4, h2]⟩
  | timeoutFire => exact noRefA_timeout r s h
  | reset => exact noRefA_of_rview r s _ rfl h

/-- Once no reference to request r remains, no event sequence resolves
it again. -/
lemma noRefA_run (P : Prims) (r : ℕ) (evs : List AriaEv) (s : AriaSt) (h : NoRefA r s) :
    NoRefA r (ariaRun P evs s) ∧
    (ariaRun P evs s).resolveLog.count r = s.resolveLog.count r := by
  induction evs generalizing s with
  | nil => exact ⟨h, rfl⟩
  | cons e t ih =>
    obtain ⟨h1, h2⟩ := noRefA_step P r e s h
    obtain ⟨h3, h4⟩ := ih (ariaStep P e s) h1
    refine ⟨h3, ?_⟩
    show (ariaRun P t (ariaStep P e s)).resolveLog.count r = _
    rw [h4, h2]

/-- Right after the first walkToPosition on the fresh module state the
PreInv invariant holds. -/
lemma preInv_init_walk (P : Prims) (p : V3 ℚ) : PreInv (walkToPosition P p ariaInit) :=
  ⟨rfl, Or.inr rfl, Or.inr rfl, Or.inr rfl, fun _ => rfl⟩

/-- A second walkToPosition call over an armed request one appends
exactly one resolution of promise one to the log. -/
lemma walkToPosition_log_one (P : Prims) (t : V3 ℚ) (s : AriaSt)
    (h1 : s.pendingWalkResolve = some 1) (h2 : s.walkRequestId = 1) :
    (walkToPosition P t s).resolveLog = s.resolveLog ++ [1] := by
  unfold walkToPosition
  rw [h1]
  dsimp only
  rw [fireWalkResolver_one s h2]
  rfl

/-- After the second call no reference to request one remains. -/
lemma noRefA_after_second (P : Prims) (t : V3 ℚ) (s : AriaSt) (h2 : s.walkRequestId = 1) :
    NoRefA 1 (walkToPosition P t s) := by
  obtain ⟨-, -, -, h4, h5, h6, h7, -⟩ := walkToPosition_fields P t s
  unfold NoRefA
  refine ⟨?_, ?_, ?_, ?_⟩
  · rw [h5, h2]
    simp
  · rw [h6, h2]
    simp
  · rw [h7, h2]
    simp
  · rw [h4, h2]
    omega

/-- C2. Starting from the fresh module state, issue a first walk, let
any walk free events run without the first promise resolving, then
issue a second walk: the second call resolves the first promise exactly
once, immediately and as a no op (the machine simply starts turning
toward the new target), and no later event of any kind can ever resolve
it a second time: its raw resolver invocation count is one forever. -/
theorem walkTo_supersede_resolves_first_exactly_once (P : Prims) (p1 p2 : V3 ℚ)
    (evs1 evs2 : List AriaEv)
    (hnw : ∀ e ∈ evs1, isWalkEv e = false)
    (hun : (ariaRun P evs1 (walkToPosition P p1 ariaInit)).resolveLog.count 1 = 0) :
    ((walkToPosition P p2
        (ariaRun P evs1 (walkToPosition P p1 ariaInit))).resolveLog.count 1 = 1) ∧
    ((ariaRun P evs2 (walkToPosition P p2
        (ariaRun P evs1 (walkToPosition P p1 ariaInit)))).resolveLog.count 1 = 1) ∧
    ((walkToPosition P p2
        (ariaRun P evs1 (walkToPosition P p1 ariaInit))).st = .turningToTarget) := by
  have hmid : PreInv (ariaRun P evs1 (walkToPosition P p1 ariaInit)) :=
    preInv_run P evs1 _ hnw (preInv_init_walk P p1)
  have hpend := hmid.2.2.2.2 hun
  have hwid := hmid.1
  have hlog := walkToPosition_log_one P p2 _ hpend hwid
  have hcount : (walkToPosition P p2
      (ariaRun P evs1 (walkToPosition P p1 ariaInit))).resolveLog.count 1 = 1 := by
    rw [hlog, count_append_self, hun]
  have hnr := noRefA_after_second P p2 _ hwid
  refine ⟨hcount, ?_, (walkToPosition_fields P p2 _).2.2.1⟩
  rw [(noRefA_run P 1 evs2 _ hnr).2, hcount]

/-- Witness for C2 at concrete targets with empty interleavings. -/
theorem walkTo_supersede_resolves_first_exactly_once_witness :
    ((∀ e ∈ ([] : List AriaEv), isWalkEv e = false) ∧
      (ariaRun P0 [] (walkToPosition P0 ⟨0, 0, -5⟩ ariaInit)).resolveLog.count 1 = 0) ∧
    ((walkToPosition P0 ⟨6, 0, -5⟩
        (ariaRun P0 [] (walkToPosition P0 ⟨0, 0, -5⟩ ariaInit))).resolveLog.count 1 = 1) :=
  ⟨⟨by simp, rfl⟩,
    (walkTo_supersede_resolves_first_exactly_once P0 ⟨0, 0, -5⟩ ⟨6, 0, -5⟩ [] []
      (by simp) rfl).1⟩

/-- C1 (divergence witness). A burst A then B then C arriving before the
workflow of A completes: when B and C arrive while the workflow of A is
suspended at one of the timer, walk or cinematic race awaits (boundaries
0, 1, 2, 4), the sequencer runs exactly one terminal workflow, for C,
with the lock released, the pending slot drained and the superseding
arrivals having cancelled the active cinematic, tour and transition sub
operations at least twice. But when the burst arrives while the workflow
of A awaits one of its two camera transitions (boundaries 3 and 5), the
arrival path cancels that transition, whose promise then never resolves
(the finish closure early returns after cancelTransition nulled the
resolver), so the workflow of A stays suspended forever, the lock is
never released, C never starts and no terminal workflow runs at all. -/
theorem burst_coalescing_deadlocks_on_transition_await :
    (∀ (a b c : Col), ∀ k ∈ ([0, 1, 2, 4] : List ℕ),
      terminals (requestCollection 5 a (burstArr k b c) orchInit) = [.terminalE c 4] ∧
      (requestCollection 5 a (burstArr k b c) orchInit).lock = false ∧
      (requestCollection 5 a (burstArr k b c) orchInit).pending = none ∧
      2 ≤ (requestCollection 5 a (burstArr k b c) orchInit).effects.count .stopTourE) ∧
    (∀ (a b c : Col), ∀ k ∈ ([3, 5] : List ℕ),
      terminals (requestCollection 5 a (burstArr k b c) orchInit) = [] ∧
      (requestCollection 5 a (burstArr k b c) orchInit).lock = true ∧
      (requestCollection 5 a (burstArr k b c) orchInit).pending = some c) := by
  constructor
  · decide
  · decide

/-- The path the source builds always has segments + 2 points: the
camera position plus the segments + 1 orbit points. -/
lemma playProductCinematicPath_length {α : Type} [LinearOrderedField α] (T : TrigFns α)
    (cam center : V3 α) (bR r h : α) (n : ℕ) :
    (playProductCinematicPath T cam center bR r h n).length = n + 2 := by
  unfold playProductCinematicPath
  dsimp only
  rw [List.length_cons, List.length_map, List.length_range]

/-- With the radius clamp inactive, the source path is exactly the
camera position consed onto the orbit shot of the spec, taken at the
camera bearing as start angle. -/
lemma playProductCinematicPath_eq_orbitShot {α : Type} [LinearOrderedField α] (T : TrigFns α)
    (cam center : V3 α) (bR r h : α) (n : ℕ) (hle : |center.x| ≤ 4) :
    playProductCinematicPath T cam center bR r h n
      = cam :: buildOrbitShot T ⟨center.x, max (1 / 2) center.y, center.z⟩ r h n
          (T.atan2f (cam.z - center.z) (cam.x - center.x)) := by
  unfold playProductCinematicPath buildOrbitShot
  dsimp only
  rw [if_neg (not_lt.mpr hle)]

/-- Math.atan2 gives zero at the example camera bearing. -/
lemma realTrig_atan2_example : realTrig.atan2f (0 : ℝ) 3 = 0 := by
  show Complex.arg ⟨(3 : ℝ), (0 : ℝ)⟩ = 0
  have he : (⟨(3 : ℝ), (0 : ℝ)⟩ : ℂ) = ((3 : ℝ) : ℂ) := by
    apply Complex.ext <;> norm_num
  rw [he, Complex.arg_ofReal_of_nonneg (by norm_num)]

/-- Orbit point zero of the example: angle 0, position (3, 1.5, -5). -/
lemma buildOrbitShot_example_head :
    (buildOrbitShot realTrig ⟨0, 1 / 2, -5⟩ 3 (3 / 2) 4 0)[0]? = some ⟨3, 3 / 2, -5⟩ := by
  unfold buildOrbitShot
  dsimp only
  rw [List.getElem?_map]
  norm_num [realTrig]

/-- Orbit point four of the example: angle two pi, coinciding with
point zero. -/
lemma buildOrbitShot_example_last :
    (buildOrbitShot realTrig ⟨0, 1 / 2, -5⟩ 3 (3 / 2) 4 0)[4]? = some ⟨3, 3 / 2, -5⟩ := by
  have hcos : Real.cos (Real.pi * 2) = 1 := by
    rw [mul_comm]
    exact Real.cos_two_pi
  have hsin : Real.sin (Real.pi * 2) = 0 := by
    rw [mul_comm]
    exact Real.sin_two_pi
  unfold buildOrbitShot
  dsimp only
  rw [List.getElem?_map]
  norm_num [realTrig, hcos, hsin]

/-- C6 counterexample. At the example of the claim (center (0, 0, -5),
radius 3, height 1.5, segments 4, camera sitting at the angle zero
point so the bearing is zero), the path the source hands to the tour
does not have 5 position points: the current camera position is
prepended, giving 6. -/
theorem cinematic_path_count_cex :
    (Camera.playProductCinematicPath Camera.realTrig ⟨3, 3 / 2, -5⟩ ⟨0, 0, -5⟩ (24 / 5) 3
        (3 / 2) 4).length ≠ 5 := by
  rw [playProductCinematicPath_length]
  norm_num

/-- C6 (amended). The generator produces segments + 2 position points:
the camera position prepended to segments + 1 points evenly spaced in
angle from the camera bearing (the orbit shot of the spec); in the
example, the orbit part has 5 points, its point 0 sits at angle 0 at
exactly (3, 1.5, -5), its point 4 sits at angle two pi on the same spot,
and the full source path is the camera position consed onto that orbit
shot. -/
theorem cinematic_path_refined :
    (∀ {α : Type} [LinearOrderedField α] (T : Camera.TrigFns α)
        (cam center : V3 α) (bR r h : α) (n : ℕ),
      (Camera.playProductCinematicPath T cam center bR r h n).length = n + 2) ∧
    (∀ {α : Type} [LinearOrderedField α] (T : Camera.TrigFns α)
        (cam center : V3 α) (bR r h : α) (n : ℕ), |center.x| ≤ 4 →
      Camera.playProductCinematicPath T cam center bR r h n
        = cam :: Camera.buildOrbitShot T ⟨center.x, max (1 / 2) center.y, center.z⟩ r h n
            (T.atan2f (cam.z - center.z) (cam.x - center.x))) ∧
    ((Camera.buildOrbitShot Camera.realTrig ⟨0, 1 / 2, -5⟩ 3 (3 / 2) 4 0).length = 5) ∧
    ((Camera.buildOrbitShot Camera.realTrig ⟨0, 1 / 2, -5⟩ 3 (3 / 2) 4 0)[0]?
        = some ⟨3, 3 / 2, -5⟩) ∧
    ((Camera.buildOrbitShot Camera.realTrig ⟨0, 1 / 2, -5⟩ 3 (3 / 2) 4 0)[4]?
        = some ⟨3, 3 / 2, -5⟩) ∧
    (Camera.playProductCinematicPath Camera.realTrig ⟨3, 3 / 2, -5⟩ ⟨0, 0, -5⟩ (24 / 5) 3
        (3 / 2) 4
      = (⟨3, 3 / 2, -5⟩ : V3 ℝ) ::
          Camera.buildOrbitShot Camera.realTrig ⟨0, 1 / 2, -5⟩ 3 (3 / 2) 4 0) := by
  refine ⟨fun T cam center bR r h n => playProductCinematicPath_length T cam center bR r h n,
    fun T cam center bR r h n hle =>
      playProductCinematicPath_eq_orbitShot T cam center bR r h n hle,
    by unfold Camera.buildOrbitShot; rw [List.length_map, List.length_range],
    buildOrbitShot_example_head, buildOrbitShot_example_last, ?_⟩
  rw [playProductCinematicPath_eq_orbitShot Camera.realTrig ⟨3, 3 / 2, -5⟩ ⟨0, 0, -5⟩
    (24 / 5) 3 (3 / 2) 4 (by norm_num)]
  norm_num [realTrig_atan2_example]

/-- Witness for C6 applying the theorem at the example input. -/
theorem cinematic_path_refined_witness :
    (|(0 : ℝ)| ≤ 4) ∧
    (Camera.playProductCinematicPath Camera.realTrig ⟨3, 3 / 2, -5⟩ ⟨0, 0, -5⟩ (24 / 5) 3
        (3 / 2) 4).length = 4 + 2 :=
  ⟨by norm_num,
    cinematic_path_refined.1 Camera.realTrig ⟨3, 3 / 2, -5⟩ ⟨0, 0, -5⟩ (24 / 5) 3 (3 / 2) 4⟩

end Theorems
